import Mathlib

/-!
# Boussinesq solver: geometric helpers, analytic integrals, compliance row

A shallow embedding of `multibody/boussinesq_solver/math_helper.cc` and
`multibody/boussinesq_solver/row_compliance_matrix.cc`, with the properties
of the specification stated and proved over it.

Modelling conventions.

* A C++ `double` is idealised as a real number: `+ - * /` are the field
  operations of `ℝ`, `sqrt`, `sin`, `cos`, `tan`, `log`, `asin`, `asinh` are the
  real functions of Mathlib, `fabs` is `|·|`, `pow(a, 2)` is `a ^ 2`.  Rounding,
  overflow, infinities and NaN are therefore outside the model, except where
  noted below.
* `Eigen::Vector2d`, `Eigen::Vector3d`, `Eigen::Matrix3d`, `Eigen::Isometry3d`
  are records of reals with the operations Eigen defines on them
  (`cross`, `dot`, `norm() = sqrt(squaredNorm())`, `Isometry3d::inverse()`
  by transposition of the linear part).
* Code that can stop (an assertion, an index out of range) returns `Option`.
-/

open Filter Topology

namespace Boussinesq

noncomputable section

/-! ## Eigen vectors -/

/-- The type `Vector2<double>` (`Eigen::Vector2d`). -/
@[ext]
structure Vector2 where
  x : ℝ
  y : ℝ

/-- The type `Vector3<double>` (`Eigen::Vector3d`). -/
@[ext]
structure Vector3 where
  x : ℝ
  y : ℝ
  z : ℝ

/-- The type `Eigen::Vector3i`: the three node indices of a mesh triangle. -/
structure Vector3i where
  i0 : Int
  i1 : Int
  i2 : Int

namespace Vector2

/-- Componentwise difference `a - b`. -/
def sub (a b : Vector2) : Vector2 := ⟨a.x - b.x, a.y - b.y⟩

instance : Sub Vector2 := ⟨sub⟩

/-- The sum of squares `a.squaredNorm()`. -/
def squaredNorm (a : Vector2) : ℝ := a.x * a.x + a.y * a.y

/-- The Euclidean length `a.norm()`, the square root of `squaredNorm`. -/
def norm (a : Vector2) : ℝ := Real.sqrt a.squaredNorm

end Vector2

namespace Vector3

/-- Componentwise sum `a + b`. -/
def add (a b : Vector3) : Vector3 := ⟨a.x + b.x, a.y + b.y, a.z + b.z⟩

/-- Componentwise difference `a - b`. -/
def sub (a b : Vector3) : Vector3 := ⟨a.x - b.x, a.y - b.y, a.z - b.z⟩

/-- Componentwise negation `-a`. -/
def neg (a : Vector3) : Vector3 := ⟨-a.x, -a.y, -a.z⟩

/-- Scalar times vector, `c * a`. -/
def smul (c : ℝ) (a : Vector3) : Vector3 := ⟨c * a.x, c * a.y, c * a.z⟩

/-- Vector divided by a scalar, `a / c`. -/
def sdiv (a : Vector3) (c : ℝ) : Vector3 := ⟨a.x / c, a.y / c, a.z / c⟩

instance : Add Vector3 := ⟨add⟩

instance : Sub Vector3 := ⟨sub⟩

instance : Neg Vector3 := ⟨neg⟩

instance : HMul ℝ Vector3 Vector3 := ⟨smul⟩

instance : HDiv Vector3 ℝ Vector3 := ⟨sdiv⟩

/-- The inner product `a.dot(b)`. -/
def dot (a b : Vector3) : ℝ := a.x * b.x + a.y * b.y + a.z * b.z

/-- The vector product `a.cross(b)`. -/
def cross (a b : Vector3) : Vector3 :=
  ⟨a.y * b.z - a.z * b.y, a.z * b.x - a.x * b.z, a.x * b.y - a.y * b.x⟩

/-- The sum of squares `a.squaredNorm()`. -/
def squaredNorm (a : Vector3) : ℝ := a.x * a.x + a.y * a.y + a.z * a.z

/-- The Euclidean length `a.norm()`, the square root of `squaredNorm`. -/
def norm (a : Vector3) : ℝ := Real.sqrt a.squaredNorm

/-- The first two coordinates, `a.head(2)`. -/
def head2 (a : Vector3) : Vector2 := ⟨a.x, a.y⟩

end Vector3

/-- The type `Eigen::Matrix3d`, stored by columns. -/
structure Matrix3d where
  col0 : Vector3
  col1 : Vector3
  col2 : Vector3

namespace Matrix3d

/-- The transpose: its columns are the rows of `R`. -/
def transpose (R : Matrix3d) : Matrix3d :=
  ⟨⟨R.col0.x, R.col1.x, R.col2.x⟩,
   ⟨R.col0.y, R.col1.y, R.col2.y⟩,
   ⟨R.col0.z, R.col1.z, R.col2.z⟩⟩

/-- Matrix times vector: the combination of the columns with the coordinates of `v`. -/
def mulVec (R : Matrix3d) (v : Vector3) : Vector3 :=
  (v.x * R.col0 + v.y * R.col1) + v.z * R.col2

/-- The determinant, as the triple product of the columns. -/
def determinant (R : Matrix3d) : ℝ := R.col0.dot (R.col1.cross R.col2)

end Matrix3d

/-- The type `Eigen::Isometry3d`: a linear part and a translation. -/
structure Isometry3d where
  linear : Matrix3d
  translation : Vector3

namespace Isometry3d

/-- The call `X.inverse()` of an `Isometry3d`: Eigen transposes the linear part and
maps the translation `t` to `-(Rᵀ t)`. -/
def inverse (X : Isometry3d) : Isometry3d :=
  ⟨X.linear.transpose, -(X.linear.transpose.mulVec X.translation)⟩

/-- The product `X * p` of a transform with a point. -/
def apply (X : Isometry3d) (p : Vector3) : Vector3 :=
  X.linear.mulVec p + X.translation

end Isometry3d

/-! ## Constants and assertions -/

/-- The constant `std::numeric_limits<double>::epsilon()`, which is `2⁻⁵²`. -/
def epsilon : ℝ := 1 / 2 ^ 52

/-- Modelled from the spec: the macro `DRAKE_ASSERT` of `drake/common/drake_assert.h`,
which is not among the sources.  The specification treats a violated assertion as
fatal to the computation, so the armed macro is modelled: the computation goes on
when the condition holds and stops without a result otherwise. -/
def DRAKE_ASSERT (c : Prop) [Decidable c] : Option Unit :=
  if c then some () else none

/-! ## `math_helper.cc` -/

/-- The 2D overload of `CalcTriangleArea` (`math_helper.cc`, lines 11-17). -/
def CalcTriangleArea2d (p1 p2 p3 : Vector2) : ℝ :=
  let u1 := p2 - p1
  let u2 := p3 - p1
  (u1.x * u2.y - u1.y * u2.x) / 2

/-- The 3D overload of `CalcTriangleArea` (`math_helper.cc`, lines 19-25). -/
def CalcTriangleArea3d (p1 p2 p3 : Vector3) : Vector3 :=
  let u1 := p2 - p1
  let u2 := p3 - p1
  (u1.cross u2) / (2 : ℝ)

/-- The function `CalcTriangleOrientation` (`math_helper.cc`, lines 27-39). -/
def CalcTriangleOrientation (p1 p2 p3 : Vector2) : Int :=
  let u1 := p2 - p1
  let u2 := p3 - p1
  let signed_area := (u1.x * u2.y - u1.y * u2.x) / 2
  let tol := 10 * epsilon
  let is_clockwise : Int := 0
  let is_clockwise : Int := if signed_area > tol then 1 else is_clockwise
  let is_clockwise : Int := if signed_area < -tol then -1 else is_clockwise
  is_clockwise

/-- The function `atanh` of `<cmath>`, the inverse hyperbolic tangent, by its
closed form `log((1 + x) / (1 - x)) / 2` on `(-1, 1)`. -/
def atanh (x : ℝ) : ℝ := 1 / 2 * Real.log ((1 + x) / (1 - x))

/-- The function `CalcIntegralJ0minus1` (`math_helper.cc`, lines 41-45). -/
def CalcIntegralJ0minus1 (theta_0 theta_f : ℝ) : ℝ :=
  let Jmn := Real.log |1 / Real.cos theta_f + Real.tan theta_f| -
    Real.log |1 / Real.cos theta_0 + Real.tan theta_0|
  Jmn

/-- The function `CalcIntegralJ1minus2` (`math_helper.cc`, lines 47-50). -/
def CalcIntegralJ1minus2 (theta_0 theta_f : ℝ) : ℝ :=
  let Jmn := 1 / Real.cos theta_f - 1 / Real.cos theta_0
  Jmn

/-- The function `CalcIntegralJ00` (`math_helper.cc`, lines 52-54). -/
def CalcIntegralJ00 (theta_0 theta_f : ℝ) : ℝ :=
  theta_f - theta_0

/-- The general branch of `CalcIntegralI0minus1P1` (`math_helper.cc`, lines 60-70),
taken when `alpha` is not within the tolerance of zero. -/
def CalcIntegralI0minus1P1General (theta_0 theta_f alpha : ℝ) : ℝ :=
  let sol0_1 := alpha * Real.arcsin (alpha * Real.sin theta_0)
  let solf_1 := alpha * Real.arcsin (alpha * Real.sin theta_f)
  let sol0_2 := Real.sqrt (1 - alpha ^ 2) *
    atanh ((Real.sqrt (2 * (1 / alpha ^ 2 - 1)) * Real.sin theta_0)
      / Real.sqrt (Real.cos (2 * theta_0) + 2 * (1 / alpha ^ 2 - 1) + 1))
  let solf_2 := Real.sqrt (1 - alpha ^ 2) *
    atanh ((Real.sqrt (2 * (1 / alpha ^ 2 - 1)) * Real.sin theta_f)
      / Real.sqrt (Real.cos (2 * theta_f) + 2 * (1 / alpha ^ 2 - 1) + 1))
  solf_1 + solf_2 - sol0_1 - sol0_2

/-- The function `CalcIntegralI0minus1P1` (`math_helper.cc`, lines 56-71). -/
def CalcIntegralI0minus1P1 (theta_0 theta_f alpha : ℝ) : ℝ :=
  if |alpha - 0| < 10 * epsilon then
    CalcIntegralJ0minus1 theta_0 theta_f
  else
    CalcIntegralI0minus1P1General theta_0 theta_f alpha

/-- The general branch of `CalcIntegralI1minus2P1` (`math_helper.cc`, lines 77-87),
taken when `alpha` is not within the tolerance of zero. -/
def CalcIntegralI1minus2P1General (theta_0 theta_f alpha : ℝ) : ℝ :=
  let sol0_1 := alpha * Real.arsinh
    ((alpha * Real.sqrt (1 - alpha ^ 2) * Real.cos theta_0) / (alpha ^ 2 - 1))
  let solf_1 := alpha * Real.arsinh
    ((alpha * Real.sqrt (1 - alpha ^ 2) * Real.cos theta_f) / (alpha ^ 2 - 1))
  let sol0_2 := Real.sqrt (alpha ^ 2 * Real.cos theta_0 ^ 2 - alpha ^ 2 + 1)
    / Real.cos theta_0
  let solf_2 := Real.sqrt (alpha ^ 2 * Real.cos theta_f ^ 2 - alpha ^ 2 + 1)
    / Real.cos theta_f
  solf_1 + solf_2 - sol0_1 - sol0_2

/-- The function `CalcIntegralI1minus2P1` (`math_helper.cc`, lines 73-88). -/
def CalcIntegralI1minus2P1 (theta_0 theta_f alpha : ℝ) : ℝ :=
  if |alpha - 0| < 10 * epsilon then
    CalcIntegralJ1minus2 theta_0 theta_f
  else
    CalcIntegralI1minus2P1General theta_0 theta_f alpha

/-- The function `CalcIntegralI2minus1Pminus1` (`math_helper.cc`, lines 90-105). -/
def CalcIntegralI2minus1Pminus1 (theta_0 theta_f alpha : ℝ) : ℝ :=
  let one_minus_a2 := 1 - alpha ^ 2
  let sol0_1 := -1 / alpha * Real.arcsin (alpha * Real.sin theta_0)
  let solf_1 := -1 / alpha * Real.arcsin (alpha * Real.sin theta_f)
  let sol0_2 := Real.sqrt (1 / one_minus_a2) *
    atanh ((Real.sqrt (2 * (1 / alpha ^ 2 - 1)) * Real.sin theta_0)
      / Real.sqrt (Real.cos (2 * theta_0) + 2 * (1 / alpha ^ 2 - 1) + 1))
  let solf_2 := Real.sqrt (1 / one_minus_a2) *
    atanh ((Real.sqrt (2 * (1 / alpha ^ 2 - 1)) * Real.sin theta_f)
      / Real.sqrt (Real.cos (2 * theta_f) + 2 * (1 / alpha ^ 2 - 1) + 1))
  solf_1 + solf_2 - sol0_1 - sol0_2

/-- The function `CalcIntegralI10Pminus1` (`math_helper.cc`, lines 107-113). -/
def CalcIntegralI10Pminus1 (theta_0 theta_f alpha : ℝ) : ℝ :=
  let sol0 := Real.arsinh
    ((alpha * Real.sqrt (1 - alpha ^ 2) * Real.cos theta_0) / (alpha ^ 2 - 1)) / alpha
  let solf := Real.arsinh
    ((alpha * Real.sqrt (1 - alpha ^ 2) * Real.cos theta_f) / (alpha ^ 2 - 1)) / alpha
  solf - sol0

/-- The function `CalcTransformationFromTriangleFrame` (`math_helper.cc`, lines 115-139). -/
def CalcTransformationFromTriangleFrame (p1 p2 p3 xA : Vector3) : Option Isometry3d := do
  let u1 := p2 - p1
  let u2 := p3 - p1
  let area := u1.cross u2
  DRAKE_ASSERT (|area.norm| > 10 * epsilon)
  let z_T := area / area.norm
  let x_T := u1 / u1.norm
  let y_T := z_T.cross x_T
  let R_WT : Matrix3d := ⟨x_T, y_T, z_T⟩
  let T0_W := xA + z_T.dot (p1 - xA) * z_T
  pure ⟨R_WT, T0_W⟩

/-- The function `CalcVolumeOfPyramidWithTrapesiumBase` (`math_helper.cc`, lines 141-147). -/
def CalcVolumeOfPyramidWithTrapesiumBase
    (trapesium_length_1 trapesium_length_2 trapesium_height pyramid_height : ℝ) : ℝ :=
  let area_base := (trapesium_length_1 + trapesium_length_2) * trapesium_height / 2
  area_base * pyramid_height / 3

/-- The function `CalcVolumeOfTetrahedral` (`math_helper.cc`, lines 149-155). -/
def CalcVolumeOfTetrahedral (p1 p2 p3 : Vector3) (height : ℝ) : ℝ :=
  let area_vec := CalcTriangleArea3d p1 p2 p3
  let area := area_vec.norm
  area * height / 3

/-- The function `CalcInterpolatedVolumeExcludingOneNode` (`math_helper.cc`, lines 157-180). -/
def CalcInterpolatedVolumeExcludingOneNode
    (p1_in : Vector3) (value_1 : ℝ) (p2_in : Vector3) (value_2 : ℝ)
    (p3_out : Vector3) (value_3 : ℝ) : ℝ :=
  let cut_ratio_p1p3 := |value_1| / (|value_1| + |value_3|)
  let cut_ratio_p2p3 := |value_2| / (|value_2| + |value_3|)
  let cut_p1p3 := p1_in + cut_ratio_p1p3 * (p3_out - p1_in)
  let cut_p2p3 := p2_in + cut_ratio_p2p3 * (p3_out - p2_in)
  let volume_tetrahedral := CalcVolumeOfTetrahedral p1_in cut_p2p3 cut_p1p3 value_1
  let l12 := p2_in - p1_in
  let area_p1_p2_p2p3 := CalcTriangleArea3d p1_in p2_in cut_p2p3
  let height_from_p2p3 := area_p1_p2_p2p3.norm * 2 / l12.norm
  let volume_pyramid :=
    CalcVolumeOfPyramidWithTrapesiumBase value_1 value_2 height_from_p2p3 l12.norm
  volume_tetrahedral + volume_pyramid

/-- The function `CalcInterpolatedVolumeExcludingTwoNode` (`math_helper.cc`, lines 182-195). -/
def CalcInterpolatedVolumeExcludingTwoNode
    (p1_out : Vector3) (value_1 : ℝ) (p2_out : Vector3) (value_2 : ℝ)
    (p3_in : Vector3) (value_3 : ℝ) : ℝ :=
  let cut_ratio_p1p3 := |value_1| / (|value_1| + |value_3|)
  let cut_ratio_p2p3 := |value_2| / (|value_2| + |value_3|)
  let cut_p1p3 := p1_out + cut_ratio_p1p3 * (p3_in - p1_out)
  let cut_p2p3 := p2_out + cut_ratio_p2p3 * (p3_in - p2_out)
  CalcVolumeOfTetrahedral p3_in cut_p1p3 cut_p2p3 value_3

/-! ## `row_compliance_matrix.cc` -/

/-- The read `v[i]` of a `std::vector` at an `int` index.  An index outside
`0 .. v.size() - 1` has no defined behaviour in C++ and gives no value here. -/
def vectorAt {α : Type} (v : List α) (i : Int) : Option α :=
  if 0 ≤ i then v[i.toNat]? else none

/-- The type of the per-triangle evaluator `CalcGeneralTriangleCompliance`
(`integral_general_triangle.h`, not among the sources), which
`CalcRowComplianceMatrix` takes here as a parameter: from the local height of the
evaluation point, the three local 2D vertices and `k_const` it gives three scalars.
A result is `none` when its norm is not a finite `double` (a component is infinite
or NaN), which is the case the assertion of line 63 rejects. -/
abbrev Evaluator : Type := ℝ → Vector2 → Vector2 → Vector2 → ℝ → Option Vector3

/-- The first part of the loop body of `CalcRowComplianceMatrix`
(`row_compliance_matrix.cc`, lines 29-63): the vertices of the triangle, the local
frame, the local coordinates, the evaluator call and the two assertions.  The
diagnostic file written at lines 49-62 does not change the result and is left out. -/
def ElementCompliance (eval : Evaluator) (points_in_mesh : List Vector3)
    (node_A : Vector3) (k_const : ℝ) (indexes : Vector3i) : Option Vector3 := do
  let p1 ← vectorAt points_in_mesh indexes.i0
  let p2 ← vectorAt points_in_mesh indexes.i1
  let p3 ← vectorAt points_in_mesh indexes.i2
  let X_WT ← CalcTransformationFromTriangleFrame p1 p2 p3 node_A
  let X_TW := X_WT.inverse
  let xA_T := X_TW.apply node_A
  let p1_T := X_TW.apply p1
  let p2_T := X_TW.apply p2
  let p3_T := X_TW.apply p3
  DRAKE_ASSERT (((|xA_T.z| : ℝ) : EReal) < ⊤)
  let element_compliance ← eval xA_T.z p1_T.head2 p2_T.head2 p3_T.head2 k_const
  pure element_compliance

/-- The update `compliance(i) = compliance(i) + e` of one entry of the row. -/
def addAt (compliance : List ℝ) (i : Int) (e : ℝ) : List ℝ :=
  let c := compliance.getD i.toNat 0
  compliance.set i.toNat (c + e)

/-- The second part of the loop body of `CalcRowComplianceMatrix`
(`row_compliance_matrix.cc`, lines 73-78): the three entries of the row are
updated one after the other. -/
def Accumulate (compliance : List ℝ) (indexes : Vector3i) (element_compliance : Vector3) :
    List ℝ :=
  let compliance := addAt compliance indexes.i0 element_compliance.x
  let compliance := addAt compliance indexes.i1 element_compliance.y
  let compliance := addAt compliance indexes.i2 element_compliance.z
  compliance

/-- The function `CalcRowComplianceMatrix` (`row_compliance_matrix.cc`, lines 19-82):
the row starts at zero and the loop body runs once per triangle, in order; the first
triangle that stops the computation leaves no row. -/
def CalcRowComplianceMatrix (eval : Evaluator) (points_in_mesh : List Vector3)
    (triangles_in_mesh : List Vector3i) (node_A : Vector3) (k_const : ℝ) :
    Option (List ℝ) :=
  let num_nodes := points_in_mesh.length
  let compliance : List ℝ := List.replicate num_nodes 0
  triangles_in_mesh.foldlM
    (fun compliance indexes => do
      let element_compliance ← ElementCompliance eval points_in_mesh node_A k_const indexes
      pure (Accumulate compliance indexes element_compliance))
    compliance

/-- The condition asserted at `math_helper.cc`, line 122: the triangle is
non-degenerate in the sense of the code. -/
def NonDegenerate (p1 p2 p3 : Vector3) : Prop :=
  |((p2 - p1).cross (p3 - p1)).norm| > 10 * epsilon

/-- What triangle `indexes` adds to entry `j` of the row: for each vertex slot
whose index is `j`, the scalar of that slot in the evaluator result
`element_compliance`. -/
def contributionAt (indexes : Vector3i) (element_compliance : Vector3) (j : Nat) : ℝ :=
  (if indexes.i0 = (j : Int) then element_compliance.x else 0) +
  (if indexes.i1 = (j : Int) then element_compliance.y else 0) +
  (if indexes.i2 = (j : Int) then element_compliance.z else 0)

/-- Triangle `indexes` is fit for the computation of the row: its three indices are
valid, it is non-degenerate (its local frame is built), and the evaluator result on
its local coordinates is finite. -/
def TriangleFit (eval : Evaluator) (points_in_mesh : List Vector3) (node_A : Vector3)
    (k_const : ℝ) (indexes : Vector3i) : Prop :=
  ∃ p1 p2 p3 X, vectorAt points_in_mesh indexes.i0 = some p1 ∧
    vectorAt points_in_mesh indexes.i1 = some p2 ∧
    vectorAt points_in_mesh indexes.i2 = some p3 ∧
    NonDegenerate p1 p2 p3 ∧
    CalcTransformationFromTriangleFrame p1 p2 p3 node_A = some X ∧
    (eval (X.inverse.apply node_A).z (X.inverse.apply p1).head2
      (X.inverse.apply p2).head2 (X.inverse.apply p3).head2 k_const).isSome = true

/-! ## The volume under the interpolant, as the specification words it -/

/-- The linear interpolant of the vertex values `v1`, `v2`, `v3` at the point
`p1 + s (p2 - p1) + t (p3 - p1)` of the triangle, for `0 ≤ s`, `0 ≤ t`, `s + t ≤ 1`. -/
def interpolant (v1 v2 v3 s t : ℝ) : ℝ := v1 + s * (v2 - v1) + t * (v3 - v1)

/-- The integral over the triangle `(p1, p2, p3)` of a function given in the
coordinates `(s, t)` of the point `p1 + s (p2 - p1) + t (p3 - p1)`: the surface
element is the length of `(p2 - p1) × (p3 - p1)` times `ds dt`. -/
def triangleIntegral (p1 p2 p3 : Vector3) (f : ℝ → ℝ → ℝ) : ℝ :=
  ((p2 - p1).cross (p3 - p1)).norm * ∫ s in (0 : ℝ)..1, ∫ t in (0 : ℝ)..(1 - s), f s t

/-- The volume under the linear interpolant with the absolute value of the field as
height: the integral over the triangle of `|v|`, as the specification words it. -/
def volumeUnderAbsInterpolant (p1 : Vector3) (v1 : ℝ) (p2 : Vector3) (v2 : ℝ)
    (p3 : Vector3) (v3 : ℝ) : ℝ :=
  triangleIntegral p1 p2 p3 fun s t => |interpolant v1 v2 v3 s t|

/-- The signed volume under the linear interpolant: the integral over the triangle
of `v` itself. -/
def signedVolumeUnderInterpolant (p1 : Vector3) (v1 : ℝ) (p2 : Vector3) (v2 : ℝ)
    (p3 : Vector3) (v3 : ℝ) : ℝ :=
  triangleIntegral p1 p2 p3 fun s t => interpolant v1 v2 v3 s t

/-! ## The two dispatching functions as syntax

`CalcIntegralI0minus1P1` and `CalcIntegralI1minus2P1` written once more as expression
trees, operation by operation, so that one can speak of the operations a call performs
and not only of its value: which expressions are evaluated on the branch taken, and
whether a divisor among them involves `alpha`. -/

/-- The three parameters of the functions. -/
inductive Var
  | theta_0
  | theta_f
  | alpha
  deriving DecidableEq

/-- The expressions of the analytic integrals: parameters, integer literals,
`std::numeric_limits<double>::epsilon()`, the four arithmetic operations,
`pow(a, n)` and the calls of `<cmath>`. -/
inductive Expr
  | var (v : Var)
  | lit (n : Nat)
  | eps
  | add (a b : Expr)
  | sub (a b : Expr)
  | mul (a b : Expr)
  | div (a b : Expr)
  | pow (a : Expr) (n : Nat)
  | sqrt (a : Expr)
  | sin (a : Expr)
  | cos (a : Expr)
  | tan (a : Expr)
  | log (a : Expr)
  | fabs (a : Expr)
  | asin (a : Expr)
  | atanh (a : Expr)
  | asinh (a : Expr)

/-- A function body: a returned expression, or a test `if (a < b)` between two bodies. -/
inductive Code
  | ret (e : Expr)
  | ifLess (a b : Expr) (thenCode elseCode : Code)

namespace Expr

/-- The value of an expression for given values of the parameters. -/
def eval (theta_0 theta_f alpha : ℝ) : Expr → ℝ
  | var Var.theta_0 => theta_0
  | var Var.theta_f => theta_f
  | var Var.alpha => alpha
  | lit n => (n : ℝ)
  | eps => epsilon
  | add a b => eval theta_0 theta_f alpha a + eval theta_0 theta_f alpha b
  | sub a b => eval theta_0 theta_f alpha a - eval theta_0 theta_f alpha b
  | mul a b => eval theta_0 theta_f alpha a * eval theta_0 theta_f alpha b
  | div a b => eval theta_0 theta_f alpha a / eval theta_0 theta_f alpha b
  | pow a n => eval theta_0 theta_f alpha a ^ n
  | sqrt a => Real.sqrt (eval theta_0 theta_f alpha a)
  | sin a => Real.sin (eval theta_0 theta_f alpha a)
  | cos a => Real.cos (eval theta_0 theta_f alpha a)
  | tan a => Real.tan (eval theta_0 theta_f alpha a)
  | log a => Real.log (eval theta_0 theta_f alpha a)
  | fabs a => |eval theta_0 theta_f alpha a|
  | asin a => Real.arcsin (eval theta_0 theta_f alpha a)
  | atanh a => Boussinesq.atanh (eval theta_0 theta_f alpha a)
  | asinh a => Real.arsinh (eval theta_0 theta_f alpha a)

/-- Whether the parameter `v` occurs in an expression. -/
def mentions (v : Var) : Expr → Bool
  | var w => decide (w = v)
  | lit _ => false
  | eps => false
  | add a b => mentions v a || mentions v b
  | sub a b => mentions v a || mentions v b
  | mul a b => mentions v a || mentions v b
  | div a b => mentions v a || mentions v b
  | pow a _ => mentions v a
  | sqrt a => mentions v a
  | sin a => mentions v a
  | cos a => mentions v a
  | tan a => mentions v a
  | log a => mentions v a
  | fabs a => mentions v a
  | asin a => mentions v a
  | atanh a => mentions v a
  | asinh a => mentions v a

/-- The divisors of an expression: the right operand of every division in it. -/
def divisors : Expr → List Expr
  | var _ => []
  | lit _ => []
  | eps => []
  | add a b => divisors a ++ divisors b
  | sub a b => divisors a ++ divisors b
  | mul a b => divisors a ++ divisors b
  | div a b => b :: (divisors a ++ divisors b)
  | pow a _ => divisors a
  | sqrt a => divisors a
  | sin a => divisors a
  | cos a => divisors a
  | tan a => divisors a
  | log a => divisors a
  | fabs a => divisors a
  | asin a => divisors a
  | atanh a => divisors a
  | asinh a => divisors a

/-- Whether evaluating the expression divides by something that involves `v`. -/
def dividesBy (v : Var) (e : Expr) : Bool :=
  (divisors e).any (mentions v)

end Expr

namespace Code

/-- The value a body returns for given values of the parameters. -/
def run (theta_0 theta_f alpha : ℝ) : Code → ℝ
  | ret e => e.eval theta_0 theta_f alpha
  | ifLess a b thenCode elseCode =>
    if a.eval theta_0 theta_f alpha < b.eval theta_0 theta_f alpha then
      run theta_0 theta_f alpha thenCode
    else
      run theta_0 theta_f alpha elseCode

/-- The expressions a call evaluates, in order: the two sides of each test met and the
returned expression of the branch taken. -/
def path (theta_0 theta_f alpha : ℝ) : Code → List Expr
  | ret e => [e]
  | ifLess a b thenCode elseCode =>
    a :: b ::
      (if a.eval theta_0 theta_f alpha < b.eval theta_0 theta_f alpha then
        path theta_0 theta_f alpha thenCode
      else
        path theta_0 theta_f alpha elseCode)

end Code

open Expr in
/-- The body of `CalcIntegralJ0minus1` (`math_helper.cc`, lines 42-43). -/
def CalcIntegralJ0minus1Expr : Expr :=
  sub (log (fabs (add (div (lit 1) (cos (var Var.theta_f))) (tan (var Var.theta_f)))))
    (log (fabs (add (div (lit 1) (cos (var Var.theta_0))) (tan (var Var.theta_0)))))

open Expr in
/-- The body of `CalcIntegralJ1minus2` (`math_helper.cc`, line 48). -/
def CalcIntegralJ1minus2Expr : Expr :=
  sub (div (lit 1) (cos (var Var.theta_f))) (div (lit 1) (cos (var Var.theta_0)))

open Expr in
/-- The general branch of `CalcIntegralI0minus1P1` (`math_helper.cc`, lines 60-70). -/
def CalcIntegralI0minus1P1GeneralExpr : Expr :=
  let alpha := var Var.alpha
  let sol0_1 := mul alpha (asin (mul alpha (sin (var Var.theta_0))))
  let solf_1 := mul alpha (asin (mul alpha (sin (var Var.theta_f))))
  let sol0_2 := mul (sqrt (sub (lit 1) (pow alpha 2)))
    (Expr.atanh (div
      (mul (sqrt (mul (lit 2) (sub (div (lit 1) (pow alpha 2)) (lit 1))))
        (sin (var Var.theta_0)))
      (sqrt (add (add (cos (mul (lit 2) (var Var.theta_0)))
        (mul (lit 2) (sub (div (lit 1) (pow alpha 2)) (lit 1)))) (lit 1)))))
  let solf_2 := mul (sqrt (sub (lit 1) (pow alpha 2)))
    (Expr.atanh (div
      (mul (sqrt (mul (lit 2) (sub (div (lit 1) (pow alpha 2)) (lit 1))))
        (sin (var Var.theta_f)))
      (sqrt (add (add (cos (mul (lit 2) (var Var.theta_f)))
        (mul (lit 2) (sub (div (lit 1) (pow alpha 2)) (lit 1)))) (lit 1)))))
  sub (sub (add solf_1 solf_2) sol0_1) sol0_2

open Expr in
/-- The general branch of `CalcIntegralI1minus2P1` (`math_helper.cc`, lines 77-87). -/
def CalcIntegralI1minus2P1GeneralExpr : Expr :=
  let alpha := var Var.alpha
  let sol0_1 := mul alpha (asinh (div
    (mul (mul alpha (sqrt (sub (lit 1) (pow alpha 2)))) (cos (var Var.theta_0)))
    (sub (pow alpha 2) (lit 1))))
  let solf_1 := mul alpha (asinh (div
    (mul (mul alpha (sqrt (sub (lit 1) (pow alpha 2)))) (cos (var Var.theta_f)))
    (sub (pow alpha 2) (lit 1))))
  let sol0_2 := div
    (sqrt (add (sub (mul (pow alpha 2) (pow (cos (var Var.theta_0)) 2)) (pow alpha 2))
      (lit 1)))
    (cos (var Var.theta_0))
  let solf_2 := div
    (sqrt (add (sub (mul (pow alpha 2) (pow (cos (var Var.theta_f)) 2)) (pow alpha 2))
      (lit 1)))
    (cos (var Var.theta_f))
  sub (sub (add solf_1 solf_2) sol0_1) sol0_2

open Expr in
/-- The body of `CalcIntegralI0minus1P1` (`math_helper.cc`, lines 57-70): the test
`fabs(alpha - 0) < 10 * epsilon`, the call of `CalcIntegralJ0minus1`, the general
formula. -/
def CalcIntegralI0minus1P1Code : Code :=
  Code.ifLess (fabs (sub (var Var.alpha) (lit 0))) (mul (lit 10) eps)
    (Code.ret CalcIntegralJ0minus1Expr)
    (Code.ret CalcIntegralI0minus1P1GeneralExpr)

open Expr in
/-- The body of `CalcIntegralI1minus2P1` (`math_helper.cc`, lines 74-87): the test
`fabs(alpha - 0) < 10 * epsilon`, the call of `CalcIntegralJ1minus2`, the general
formula. -/
def CalcIntegralI1minus2P1Code : Code :=
  Code.ifLess (fabs (sub (var Var.alpha) (lit 0))) (mul (lit 10) eps)
    (Code.ret CalcIntegralJ1minus2Expr)
    (Code.ret CalcIntegralI1minus2P1GeneralExpr)

/-! ## Lemmas on vectors -/
namespace Vector3

@[simp]
theorem add_x (a b : Vector3) : (a + b).x = a.x + b.x := rfl

@[simp]
theorem add_y (a b : Vector3) : (a + b).y = a.y + b.y := rfl

@[simp]
theorem add_z (a b : Vector3) : (a + b).z = a.z + b.z := rfl

@[simp]
theorem sub_x (a b : Vector3) : (a - b).x = a.x - b.x := rfl

@[simp]
theorem sub_y (a b : Vector3) : (a - b).y = a.y - b.y := rfl

@[simp]
theorem sub_z (a b : Vector3) : (a - b).z = a.z - b.z := rfl

@[simp]
theorem neg_x (a : Vector3) : (-a).x = -a.x := rfl

@[simp]
theorem neg_y (a : Vector3) : (-a).y = -a.y := rfl

@[simp]
theorem neg_z (a : Vector3) : (-a).z = -a.z := rfl

@[simp]
theorem smul_x (c : ℝ) (a : Vector3) : (c * a).x = c * a.x := rfl

@[simp]
theorem smul_y (c : ℝ) (a : Vector3) : (c * a).y = c * a.y := rfl

@[simp]
theorem smul_z (c : ℝ) (a : Vector3) : (c * a).z = c * a.z := rfl

@[simp]
theorem sdiv_x (a : Vector3) (c : ℝ) : (a / c).x = a.x / c := rfl

@[simp]
theorem sdiv_y (a : Vector3) (c : ℝ) : (a / c).y = a.y / c := rfl

@[simp]
theorem sdiv_z (a : Vector3) (c : ℝ) : (a / c).z = a.z / c := rfl

@[simp]
theorem cross_x (a b : Vector3) : (a.cross b).x = a.y * b.z - a.z * b.y := rfl

@[simp]
theorem cross_y (a b : Vector3) : (a.cross b).y = a.z * b.x - a.x * b.z := rfl

@[simp]
theorem cross_z (a b : Vector3) : (a.cross b).z = a.x * b.y - a.y * b.x := rfl

theorem squaredNorm_nonneg (a : Vector3) : 0 ≤ a.squaredNorm := by
  unfold squaredNorm
  nlinarith [mul_self_nonneg a.x, mul_self_nonneg a.y, mul_self_nonneg a.z]

theorem norm_nonneg (a : Vector3) : 0 ≤ a.norm := Real.sqrt_nonneg _

theorem norm_mul_self (a : Vector3) : a.norm * a.norm = a.squaredNorm :=
  Real.mul_self_sqrt a.squaredNorm_nonneg

theorem squaredNorm_sdiv (a : Vector3) (c : ℝ) :
    (a / c).squaredNorm = a.squaredNorm / (c * c) := by
  by_cases hc : c = 0
  · subst hc; simp [squaredNorm]
  · simp only [squaredNorm, sdiv_x, sdiv_y, sdiv_z]; field_simp

theorem squaredNorm_smul (c : ℝ) (a : Vector3) :
    (c * a).squaredNorm = c * c * a.squaredNorm := by
  simp only [squaredNorm, smul_x, smul_y, smul_z]; ring

theorem norm_smul (c : ℝ) (a : Vector3) : (c * a).norm = |c| * a.norm := by
  unfold norm
  rw [squaredNorm_smul, Real.sqrt_mul (mul_self_nonneg c), Real.sqrt_mul_self_eq_abs]

theorem norm_sdiv (a : Vector3) (c : ℝ) : (a / c).norm = a.norm / |c| := by
  unfold norm
  rw [squaredNorm_sdiv, Real.sqrt_div a.squaredNorm_nonneg, Real.sqrt_mul_self_eq_abs]

theorem norm_sdiv_norm (a : Vector3) (h : 0 < a.norm) : (a / a.norm).norm = 1 := by
  rw [norm_sdiv, abs_of_pos h, div_self h.ne']

theorem dot_self (a : Vector3) : a.dot a = a.squaredNorm := rfl

theorem squaredNorm_cross (a b : Vector3) :
    (a.cross b).squaredNorm = a.squaredNorm * b.squaredNorm - (a.dot b) ^ 2 := by
  simp only [squaredNorm, dot, cross_x, cross_y, cross_z]; ring

theorem norm_pos_of_cross_left (a b : Vector3) (h : 0 < (a.cross b).norm) : 0 < a.norm := by
  have h1 : 0 < (a.cross b).squaredNorm := Real.sqrt_pos.mp h
  rw [squaredNorm_cross] at h1
  apply Real.sqrt_pos.mpr
  rcases (squaredNorm_nonneg a).lt_or_eq with h2 | h2
  · exact h2
  · rw [← h2] at h1; nlinarith [sq_nonneg (a.dot b)]

end Vector3

theorem epsilon_pos : 0 < epsilon := by unfold epsilon; positivity

theorem frame_eq (p1 p2 p3 xA : Vector3)
    (h : 10 * epsilon < ((p2 - p1).cross (p3 - p1)).norm) :
    CalcTransformationFromTriangleFrame p1 p2 p3 xA =
      some ⟨⟨(p2 - p1) / (p2 - p1).norm,
            (((p2 - p1).cross (p3 - p1)) / ((p2 - p1).cross (p3 - p1)).norm).cross
              ((p2 - p1) / (p2 - p1).norm),
            ((p2 - p1).cross (p3 - p1)) / ((p2 - p1).cross (p3 - p1)).norm⟩,
        xA + (((p2 - p1).cross (p3 - p1)) / ((p2 - p1).cross (p3 - p1)).norm).dot (p1 - xA) *
          (((p2 - p1).cross (p3 - p1)) / ((p2 - p1).cross (p3 - p1)).norm)⟩ := by
  have h' : |((p2 - p1).cross (p3 - p1)).norm| > 10 * epsilon := by
    rw [abs_of_nonneg (Vector3.norm_nonneg _)]; exact h
  simp [CalcTransformationFromTriangleFrame, DRAKE_ASSERT, h']

/-! ## Lemmas on the row assembly -/

theorem vectorAt_eq_some {α : Type} {v : List α} {i : Int} {a : α}
    (h : vectorAt v i = some a) : 0 ≤ i ∧ i.toNat < v.length := by
  unfold vectorAt at h
  split at h
  · next h0 =>
    refine ⟨h0, ?_⟩
    by_contra hlt
    rw [List.getElem?_eq_none (not_lt.mp hlt)] at h
    cases h
  · cases h

theorem vectorAt_isSome {α : Type} {v : List α} {i : Int}
    (h0 : 0 ≤ i) (h1 : i.toNat < v.length) : ∃ a, vectorAt v i = some a := by
  refine ⟨v[i.toNat], ?_⟩
  simp [vectorAt, h0, List.getElem?_eq_getElem h1]

theorem addAt_length (c : List ℝ) (i : Int) (e : ℝ) : (addAt c i e).length = c.length := by
  simp [addAt]

theorem addAt_getD (c : List ℝ) (i : Int) (e : ℝ) (j : Nat)
    (h0 : 0 ≤ i) (h1 : i.toNat < c.length) :
    (addAt c i e).getD j 0 = c.getD j 0 + (if i = (j : Int) then e else 0) := by
  unfold addAt
  by_cases hij : i = (j : Int)
  · have hj : i.toNat = j := by omega
    have hjl : j < c.length := hj ▸ h1
    rw [if_pos hij, hj]
    simp [List.getD_eq_getElem?_getD, List.getElem?_set, hjl]
  · have hj : i.toNat ≠ j := by omega
    rw [if_neg hij]
    simp [List.getD_eq_getElem?_getD, List.getElem?_set, hj]

theorem Accumulate_length (c : List ℝ) (t : Vector3i) (e : Vector3) :
    (Accumulate c t e).length = c.length := by
  simp [Accumulate, addAt_length]

theorem Accumulate_getD (c : List ℝ) (t : Vector3i) (e : Vector3) (j : Nat)
    (h0 : 0 ≤ t.i0 ∧ t.i0.toNat < c.length) (h1 : 0 ≤ t.i1 ∧ t.i1.toNat < c.length)
    (h2 : 0 ≤ t.i2 ∧ t.i2.toNat < c.length) :
    (Accumulate c t e).getD j 0 = c.getD j 0 + contributionAt t e j := by
  unfold Accumulate contributionAt
  simp only []
  rw [addAt_getD _ _ _ _ h2.1 (by simpa [addAt_length] using h2.2),
    addAt_getD _ _ _ _ h1.1 (by simpa [addAt_length] using h1.2),
    addAt_getD _ _ _ _ h0.1 h0.2]
  ring

/-- What `ElementCompliance` computes, spelled out. -/
theorem ElementCompliance_eq_some_iff (eval : Evaluator) (points : List Vector3)
    (node_A : Vector3) (k : ℝ) (t : Vector3i) (e : Vector3) :
    ElementCompliance eval points node_A k t = some e ↔
      ∃ p1 p2 p3 X, vectorAt points t.i0 = some p1 ∧ vectorAt points t.i1 = some p2 ∧
        vectorAt points t.i2 = some p3 ∧
        CalcTransformationFromTriangleFrame p1 p2 p3 node_A = some X ∧
        eval (X.inverse.apply node_A).z (X.inverse.apply p1).head2
          (X.inverse.apply p2).head2 (X.inverse.apply p3).head2 k = some e := by
  have hfin : ∀ r : ℝ, ((r : EReal) < ⊤) := fun r => EReal.coe_lt_top r
  unfold ElementCompliance
  constructor
  · intro h
    simp only [Option.bind_eq_bind, Option.bind_eq_some, DRAKE_ASSERT, hfin, if_true,
      Option.pure_def] at h
    obtain ⟨p1, h1, p2, h2, p3, h3, X, hX, _, _, e', he, hee⟩ := h
    cases hee
    exact ⟨p1, p2, p3, X, h1, h2, h3, hX, he⟩
  · rintro ⟨p1, p2, p3, X, h1, h2, h3, hX, he⟩
    simp [h1, h2, h3, hX, he, DRAKE_ASSERT, hfin]

theorem foldlM_row (eval : Evaluator) (points : List Vector3) (node_A : Vector3) (k : ℝ)
    (tris : List Vector3i) :
    ∀ c : List ℝ, c.length = points.length →
      (∀ t ∈ tris, ∃ e, ElementCompliance eval points node_A k t = some e) →
      ∃ row, tris.foldlM (fun compliance indexes => do
          let element_compliance ← ElementCompliance eval points node_A k indexes
          pure (Accumulate compliance indexes element_compliance)) c = some row ∧
        row.length = points.length ∧
        ∀ j, row.getD j 0 = c.getD j 0 +
          (tris.map fun t => (ElementCompliance eval points node_A k t).elim 0
            fun e => contributionAt t e j).sum := by
  induction tris with
  | nil => intro c hc _; exact ⟨c, by simp, hc, by simp⟩
  | cons t ts ih =>
    intro c hc hall
    obtain ⟨e, he⟩ := hall t (List.mem_cons_self _ _)
    obtain ⟨row, hrow, hlen, hget⟩ := ih (Accumulate c t e)
      (by rw [Accumulate_length, hc]) (fun t' ht' => hall t' (List.mem_cons_of_mem _ ht'))
    refine ⟨row, ?_, hlen, ?_⟩
    · simp only [List.foldlM_cons, he, Option.bind_eq_bind, Option.some_bind, Option.pure_def]
      exact hrow
    · intro j
      obtain ⟨p1, p2, p3, X, h1, h2, h3, -, -⟩ :=
        (ElementCompliance_eq_some_iff eval points node_A k t e).mp he
      rw [hget j, Accumulate_getD c t e j (hc ▸ vectorAt_eq_some h1)
        (hc ▸ vectorAt_eq_some h2) (hc ▸ vectorAt_eq_some h3)]
      simp only [List.map_cons, List.sum_cons, he, Option.elim_some]
      ring

theorem foldlM_none (eval : Evaluator) (points : List Vector3) (node_A : Vector3) (k : ℝ)
    (tris : List Vector3i) :
    ∀ c : List ℝ, (∃ t ∈ tris, ElementCompliance eval points node_A k t = none) →
      tris.foldlM (fun compliance indexes => do
          let element_compliance ← ElementCompliance eval points node_A k indexes
          pure (Accumulate compliance indexes element_compliance)) c = none := by
  induction tris with
  | nil => intro c h; obtain ⟨t, ht, _⟩ := h; cases ht
  | cons t ts ih =>
    intro c h
    simp only [List.foldlM_cons, Option.bind_eq_bind]
    cases he : ElementCompliance eval points node_A k t with
    | none => simp
    | some e =>
      obtain ⟨t', ht', hn⟩ := h
      rcases List.mem_cons.mp ht' with rfl | hin
      · rw [he] at hn; cases hn
      · simp only [Option.some_bind, Option.pure_def]
        exact ih _ ⟨t', hin, hn⟩

/-! ## Lemmas on the local frame -/

theorem NonDegenerate_iff (p1 p2 p3 : Vector3) :
    NonDegenerate p1 p2 p3 ↔ 10 * epsilon < ((p2 - p1).cross (p3 - p1)).norm := by
  unfold NonDegenerate
  rw [abs_of_nonneg (Vector3.norm_nonneg _)]

/-- Inverse transform of a point, by coordinates. -/
theorem inverse_apply (X : Isometry3d) (p : Vector3) :
    X.inverse.apply p =
      ⟨X.linear.col0.dot (p - X.translation), X.linear.col1.dot (p - X.translation),
        X.linear.col2.dot (p - X.translation)⟩ := by
  ext <;>
  simp [Isometry3d.inverse, Isometry3d.apply, Matrix3d.mulVec, Matrix3d.transpose,
    Vector3.dot] <;> ring

/-- Facts on a unit normal `z` and a unit tangent `x` orthogonal to it. -/
theorem unit_frame_facts (x z : Vector3) (hx : x.squaredNorm = 1) (hz : z.squaredNorm = 1)
    (hxz : x.dot z = 0) :
    (z.cross x).squaredNorm = 1 ∧ x.dot (z.cross x) = 0 ∧ (z.cross x).dot z = 0 ∧
      x.cross (z.cross x) = z ∧ x.dot ((z.cross x).cross z) = 1 := by
  have hzx : z.dot x = 0 := by rw [← hxz]; simp only [Vector3.dot]; ring
  refine ⟨?_, ?_, ?_, ?_, ?_⟩
  · rw [Vector3.squaredNorm_cross, hx, hz, hzx]; norm_num
  · simp only [Vector3.dot, Vector3.cross_x, Vector3.cross_y, Vector3.cross_z]; ring
  · simp only [Vector3.dot, Vector3.cross_x, Vector3.cross_y, Vector3.cross_z]; ring
  · simp only [Vector3.squaredNorm] at hx
    simp only [Vector3.dot] at hxz
    ext
    · simp only [Vector3.cross_x, Vector3.cross_y, Vector3.cross_z]
      linear_combination z.x * hx - x.x * hxz
    · simp only [Vector3.cross_x, Vector3.cross_y, Vector3.cross_z]
      linear_combination z.y * hx - x.y * hxz
    · simp only [Vector3.cross_x, Vector3.cross_y, Vector3.cross_z]
      linear_combination z.z * hx - x.z * hxz
  · simp only [Vector3.squaredNorm] at hx hz
    simp only [Vector3.dot] at hxz
    simp only [Vector3.dot, Vector3.cross_x, Vector3.cross_y, Vector3.cross_z]
    linear_combination (z.x * z.x + z.y * z.y + z.z * z.z) * hx + hz -
      (x.x * z.x + x.y * z.y + x.z * z.z) * hxz

theorem squaredNorm_eq_one_of_norm {a : Vector3} (h : a.norm = 1) : a.squaredNorm = 1 := by
  rw [← Vector3.norm_mul_self, h]; norm_num

theorem norm_eq_one_of_squaredNorm {a : Vector3} (h : a.squaredNorm = 1) : a.norm = 1 := by
  unfold Vector3.norm; rw [h]; exact Real.sqrt_one

/-- The frame of a non-degenerate triangle, with the facts used below. -/
theorem frame_facts (p1 p2 p3 xA : Vector3) (h : NonDegenerate p1 p2 p3) :
    0 < ((p2 - p1).cross (p3 - p1)).norm ∧ 0 < (p2 - p1).norm ∧
    ∃ X, CalcTransformationFromTriangleFrame p1 p2 p3 xA = some X ∧
      X.linear.col0 = (p2 - p1) / (p2 - p1).norm ∧
      X.linear.col2 = ((p2 - p1).cross (p3 - p1)) / ((p2 - p1).cross (p3 - p1)).norm ∧
      X.linear.col1 = X.linear.col2.cross X.linear.col0 ∧
      X.translation = xA + X.linear.col2.dot (p1 - xA) * X.linear.col2 ∧
      X.linear.col0.squaredNorm = 1 ∧ X.linear.col2.squaredNorm = 1 ∧
      X.linear.col0.dot X.linear.col2 = 0 := by
  have hN : 0 < ((p2 - p1).cross (p3 - p1)).norm :=
    lt_trans (by have := epsilon_pos; linarith) ((NonDegenerate_iff p1 p2 p3).mp h)
  have hL : 0 < (p2 - p1).norm := Vector3.norm_pos_of_cross_left _ _ hN
  refine ⟨hN, hL, _, frame_eq p1 p2 p3 xA ((NonDegenerate_iff p1 p2 p3).mp h),
    rfl, rfl, rfl, rfl, ?_, ?_, ?_⟩
  · exact squaredNorm_eq_one_of_norm (Vector3.norm_sdiv_norm _ hL)
  · exact squaredNorm_eq_one_of_norm (Vector3.norm_sdiv_norm _ hN)
  · simp only [Vector3.dot, Vector3.sdiv_x, Vector3.sdiv_y, Vector3.sdiv_z,
      Vector3.cross_x, Vector3.cross_y, Vector3.cross_z]
    field_simp
    ring

theorem normal_dot_edges (p1 p2 p3 : Vector3) (c : ℝ) :
    (((p2 - p1).cross (p3 - p1)) / c).dot (p2 - p1) = 0 ∧
    (((p2 - p1).cross (p3 - p1)) / c).dot (p3 - p1) = 0 := by
  constructor <;>
  · simp only [Vector3.dot, Vector3.sdiv_x, Vector3.sdiv_y, Vector3.sdiv_z,
      Vector3.cross_x, Vector3.cross_y, Vector3.cross_z, Vector3.sub_x, Vector3.sub_y,
      Vector3.sub_z]
    ring

theorem CalcTriangleArea3d_norm (p1 p2 p3 : Vector3) :
    (CalcTriangleArea3d p1 p2 p3).norm = ((p2 - p1).cross (p3 - p1)).norm / 2 := by
  unfold CalcTriangleArea3d
  simp only []
  rw [Vector3.norm_sdiv, abs_of_pos (by norm_num : (0 : ℝ) < 2)]

theorem frame_eq_none (p1 p2 p3 xA : Vector3) (h : ¬ NonDegenerate p1 p2 p3) :
    CalcTransformationFromTriangleFrame p1 p2 p3 xA = none := by
  unfold NonDegenerate at h
  simp [CalcTransformationFromTriangleFrame, DRAKE_ASSERT, h]

theorem frame_eq_none_iff (p1 p2 p3 xA : Vector3) :
    CalcTransformationFromTriangleFrame p1 p2 p3 xA = none ↔
      ((p2 - p1).cross (p3 - p1)).norm ≤ 10 * epsilon := by
  constructor
  · intro hn
    by_contra hlt
    obtain ⟨-, -, X, hX, -⟩ :=
      frame_facts p1 p2 p3 xA ((NonDegenerate_iff p1 p2 p3).mpr (not_le.mp hlt))
    rw [hX] at hn; cases hn
  · intro hle
    exact frame_eq_none p1 p2 p3 xA (fun hnd => absurd ((NonDegenerate_iff p1 p2 p3).mp hnd)
      (not_lt.mpr hle))

theorem TriangleFit_iff (eval : Evaluator) (points : List Vector3) (node_A : Vector3)
    (k : ℝ) (t : Vector3i) :
    TriangleFit eval points node_A k t ↔
      ∃ e, ElementCompliance eval points node_A k t = some e := by
  constructor
  · rintro ⟨p1, p2, p3, X, h1, h2, h3, -, hX, he⟩
    obtain ⟨e, he'⟩ := Option.isSome_iff_exists.mp he
    exact ⟨e, (ElementCompliance_eq_some_iff eval points node_A k t e).mpr
      ⟨p1, p2, p3, X, h1, h2, h3, hX, he'⟩⟩
  · rintro ⟨e, he⟩
    obtain ⟨p1, p2, p3, X, h1, h2, h3, hX, he'⟩ :=
      (ElementCompliance_eq_some_iff eval points node_A k t e).mp he
    refine ⟨p1, p2, p3, X, h1, h2, h3, ?_, hX, by rw [he']; rfl⟩
    by_contra hnd
    rw [frame_eq_none p1 p2 p3 node_A hnd] at hX
    cases hX

theorem NonDegenerate_of_squaredNorm_cross_eq_one (p1 p2 p3 : Vector3)
    (h : ((p2 - p1).cross (p3 - p1)).squaredNorm = 1) : NonDegenerate p1 p2 p3 := by
  rw [NonDegenerate_iff, norm_eq_one_of_squaredNorm h]
  unfold epsilon
  norm_num

theorem NonDegenerate_unit_right_triangle :
    NonDegenerate ⟨0, 0, 0⟩ ⟨1, 0, 0⟩ ⟨0, 1, 0⟩ := by
  apply NonDegenerate_of_squaredNorm_cross_eq_one
  simp [Vector3.squaredNorm]

theorem TriangleFit_of_finite (eval : Evaluator) (points : List Vector3) (node_A : Vector3)
    (k : ℝ) (t : Vector3i) (p1 p2 p3 : Vector3)
    (h1 : vectorAt points t.i0 = some p1) (h2 : vectorAt points t.i1 = some p2)
    (h3 : vectorAt points t.i2 = some p3) (hnd : NonDegenerate p1 p2 p3)
    (hfin : ∀ z q1 q2 q3, (eval z q1 q2 q3 k).isSome = true) :
    TriangleFit eval points node_A k t := by
  obtain ⟨-, -, X, hX, -⟩ := frame_facts p1 p2 p3 node_A hnd
  exact ⟨p1, p2, p3, X, h1, h2, h3, hnd, hX, hfin _ _ _ _⟩

theorem unit_square_mesh_fit :
    ∀ t ∈ [(⟨0, 1, 2⟩ : Vector3i), ⟨0, 2, 3⟩],
      TriangleFit (fun _ _ _ _ _ => some ⟨1, 2, 3⟩)
        [⟨0, 0, 0⟩, ⟨1, 0, 0⟩, ⟨1, 1, 0⟩, ⟨0, 1, 0⟩] ⟨1 / 2, 1 / 2, 1⟩ 1 t := by
  intro t ht
  simp only [List.mem_cons, List.mem_singleton, List.not_mem_nil, or_false] at ht
  rcases ht with rfl | rfl
  · refine TriangleFit_of_finite _ _ _ _ _ ⟨0, 0, 0⟩ ⟨1, 0, 0⟩ ⟨1, 1, 0⟩ (by simp [vectorAt])
      (by simp [vectorAt]) (by simp [vectorAt]) ?_ (fun _ _ _ _ => rfl)
    apply NonDegenerate_of_squaredNorm_cross_eq_one
    simp [Vector3.squaredNorm]
  · refine TriangleFit_of_finite _ _ _ _ _ ⟨0, 0, 0⟩ ⟨1, 1, 0⟩ ⟨0, 1, 0⟩ (by simp [vectorAt])
      (by simp [vectorAt]) (by simp [vectorAt]) ?_ (fun _ _ _ _ => rfl)
    apply NonDegenerate_of_squaredNorm_cross_eq_one
    simp [Vector3.squaredNorm]

theorem ElementCompliance_of_fit_const (points : List Vector3) (node_A : Vector3) (k : ℝ)
    (t : Vector3i) (e : Vector3)
    (h : TriangleFit (fun _ _ _ _ _ => some e) points node_A k t) :
    ElementCompliance (fun _ _ _ _ _ => some e) points node_A k t = some e := by
  obtain ⟨p1, p2, p3, X, h1, h2, h3, -, hX, -⟩ := h
  exact (ElementCompliance_eq_some_iff _ points node_A k t e).mpr
    ⟨p1, p2, p3, X, h1, h2, h3, hX, rfl⟩

/-- The row of the unit square made of the triangles `(0,1,2)` and `(0,2,3)`, for an
evaluator that gives `(1, 2, 3)` on every triangle: the shared nodes `0` and `2` get
`1 + 1` and `3 + 2`. -/
theorem unit_square_row :
    CalcRowComplianceMatrix (fun _ _ _ _ _ => some ⟨1, 2, 3⟩)
      [⟨0, 0, 0⟩, ⟨1, 0, 0⟩, ⟨1, 1, 0⟩, ⟨0, 1, 0⟩] [⟨0, 1, 2⟩, ⟨0, 2, 3⟩]
      ⟨1 / 2, 1 / 2, 1⟩ 1 = some [2, 2, 5, 3] := by
  have e1 := ElementCompliance_of_fit_const _ _ _ _ _
    (unit_square_mesh_fit ⟨0, 1, 2⟩ (by simp))
  have e2 := ElementCompliance_of_fit_const _ _ _ _ _
    (unit_square_mesh_fit ⟨0, 2, 3⟩ (by simp))
  simp only [CalcRowComplianceMatrix, List.foldlM_cons, List.foldlM_nil, e1, e2,
    Option.bind_eq_bind, Option.some_bind, Option.pure_def, Accumulate, addAt]
  have t2 : Int.toNat 2 = 2 := rfl
  have t3 : Int.toNat 3 = 3 := rfl
  norm_num [List.replicate, t2, t3, List.set]

theorem unit_right_triangle_normal :
    (((⟨1, 0, 0⟩ : Vector3) - ⟨0, 0, 0⟩).cross ((⟨0, 1, 0⟩ : Vector3) - ⟨0, 0, 0⟩)) /
      (((⟨1, 0, 0⟩ : Vector3) - ⟨0, 0, 0⟩).cross ((⟨0, 1, 0⟩ : Vector3) - ⟨0, 0, 0⟩)).norm =
      ⟨0, 0, 1⟩ := by
  have hn : (((⟨1, 0, 0⟩ : Vector3) - ⟨0, 0, 0⟩).cross
      ((⟨0, 1, 0⟩ : Vector3) - ⟨0, 0, 0⟩)).norm = 1 :=
    norm_eq_one_of_squaredNorm (by simp [Vector3.squaredNorm])
  rw [hn]
  ext <;> simp

theorem unit_right_triangle_edge : ((⟨1, 0, 0⟩ : Vector3) - ⟨0, 0, 0⟩).norm = 1 :=
  norm_eq_one_of_squaredNorm (by simp [Vector3.squaredNorm])

/-! ## Lemmas on the analytic integrals -/

/-- The argument of `atanh` in the general formulas, for `alpha ≠ 0`, without the
division by `alpha ^ 2`. -/
theorem atanh_arg_eq (θ α : ℝ) (hα : α ≠ 0) :
    (Real.sqrt (2 * (1 / α ^ 2 - 1)) * Real.sin θ)
        / Real.sqrt (Real.cos (2 * θ) + 2 * (1 / α ^ 2 - 1) + 1) =
      (Real.sqrt (2 * (1 - α ^ 2)) * Real.sin θ)
        / Real.sqrt (α ^ 2 * (Real.cos (2 * θ) + 1) + 2 * (1 - α ^ 2)) := by
  have hα2 : (0 : ℝ) < α ^ 2 := by positivity
  have hs : Real.sqrt (α ^ 2) ≠ 0 := (Real.sqrt_pos.mpr hα2).ne'
  have e1 : 2 * (1 / α ^ 2 - 1) = (2 * (1 - α ^ 2)) / α ^ 2 := by field_simp
  have e2 : Real.cos (2 * θ) + 2 * (1 / α ^ 2 - 1) + 1 =
      (α ^ 2 * (Real.cos (2 * θ) + 1) + 2 * (1 - α ^ 2)) / α ^ 2 := by field_simp; ring
  rw [e2, e1, Real.sqrt_div' _ hα2.le, Real.sqrt_div' _ hα2.le]
  field_simp

theorem atanh_arg_tendsto (θ : ℝ) :
    Tendsto (fun α : ℝ => (Real.sqrt (2 * (1 / α ^ 2 - 1)) * Real.sin θ)
        / Real.sqrt (Real.cos (2 * θ) + 2 * (1 / α ^ 2 - 1) + 1)) (𝓝[≠] 0)
      (𝓝 (Real.sin θ)) := by
  have hg : ContinuousAt (fun α : ℝ => (Real.sqrt (2 * (1 - α ^ 2)) * Real.sin θ)
      / Real.sqrt (α ^ 2 * (Real.cos (2 * θ) + 1) + 2 * (1 - α ^ 2))) 0 := by
    refine ContinuousAt.div (by fun_prop) (by fun_prop) ?_
    simp
  have hg0 : (Real.sqrt (2 * (1 - (0 : ℝ) ^ 2)) * Real.sin θ)
      / Real.sqrt ((0 : ℝ) ^ 2 * (Real.cos (2 * θ) + 1) + 2 * (1 - (0 : ℝ) ^ 2)) =
      Real.sin θ := by
    have h2 : Real.sqrt 2 ≠ 0 := (Real.sqrt_pos.mpr (by norm_num)).ne'
    simp only [ne_eq, OfNat.ofNat_ne_zero, not_false_eq_true, zero_pow, sub_zero, mul_one,
      zero_mul, zero_add]
    field_simp
  have ht := hg.tendsto
  simp only [hg0] at ht
  refine (ht.mono_left nhdsWithin_le_nhds).congr' ?_
  refine eventually_nhdsWithin_of_forall ?_
  intro α hα
  exact (atanh_arg_eq θ α hα).symm

theorem sin_abs_lt_one (θ : ℝ) (h : Real.cos θ ≠ 0) :
    -1 < Real.sin θ ∧ Real.sin θ < 1 := by
  have h1 := Real.sin_sq_add_cos_sq θ
  have h2 : 0 < Real.cos θ ^ 2 := by positivity
  constructor <;> nlinarith

theorem atanh_continuousAt (x : ℝ) (h1 : -1 < x) (h2 : x < 1) : ContinuousAt atanh x := by
  unfold atanh
  refine continuousAt_const.mul (ContinuousAt.log ?_ ?_)
  · exact ContinuousAt.div (by fun_prop) (by fun_prop) (by linarith)
  · exact div_ne_zero (by linarith) (by linarith)

theorem atanh_sin (θ : ℝ) (h : Real.cos θ ≠ 0) :
    atanh (Real.sin θ) = Real.log |1 / Real.cos θ + Real.tan θ| := by
  obtain ⟨h1, h2⟩ := sin_abs_lt_one θ h
  have hsc := Real.sin_sq_add_cos_sq θ
  have e : (1 + Real.sin θ) / (1 - Real.sin θ) = (1 / Real.cos θ + Real.tan θ) ^ 2 := by
    rw [Real.tan_eq_sin_div_cos]
    have h3 : 1 - Real.sin θ ≠ 0 := by linarith
    field_simp
    nlinarith
  unfold atanh
  rw [e, Real.log_pow, Real.log_abs]
  push_cast
  ring

theorem general_term_tendsto (θ : ℝ) (h : Real.cos θ ≠ 0) :
    Tendsto (fun α : ℝ => α * Real.arcsin (α * Real.sin θ) +
        Real.sqrt (1 - α ^ 2) *
          atanh ((Real.sqrt (2 * (1 / α ^ 2 - 1)) * Real.sin θ)
            / Real.sqrt (Real.cos (2 * θ) + 2 * (1 / α ^ 2 - 1) + 1))) (𝓝[≠] 0)
      (𝓝 (Real.log |1 / Real.cos θ + Real.tan θ|)) := by
  obtain ⟨h1, h2⟩ := sin_abs_lt_one θ h
  have t1 : Tendsto (fun α : ℝ => α * Real.arcsin (α * Real.sin θ)) (𝓝[≠] 0) (𝓝 0) := by
    have hc : ContinuousAt (fun α : ℝ => α * Real.arcsin (α * Real.sin θ)) 0 :=
      continuousAt_id.mul (Real.continuous_arcsin.continuousAt.comp (by fun_prop))
    have := hc.tendsto
    simp only [zero_mul] at this
    exact this.mono_left nhdsWithin_le_nhds
  have t2 : Tendsto (fun α : ℝ => Real.sqrt (1 - α ^ 2)) (𝓝[≠] 0) (𝓝 1) := by
    have hc : ContinuousAt (fun α : ℝ => Real.sqrt (1 - α ^ 2)) 0 := by fun_prop
    have := hc.tendsto
    simp only [ne_eq, OfNat.ofNat_ne_zero, not_false_eq_true, zero_pow, sub_zero,
      Real.sqrt_one] at this
    exact this.mono_left nhdsWithin_le_nhds
  have t4 := (atanh_continuousAt _ h1 h2).tendsto.comp (atanh_arg_tendsto θ)
  have := t1.add (t2.mul t4)
  rw [zero_add, one_mul, atanh_sin θ h] at this
  exact this

theorem I1minus2P1General_zero (θ0 θf : ℝ) :
    CalcIntegralI1minus2P1General θ0 θf 0 = CalcIntegralJ1minus2 θ0 θf := by
  simp [CalcIntegralI1minus2P1General, CalcIntegralJ1minus2]

theorem I1minus2P1General_continuousAt (θ0 θf : ℝ) :
    ContinuousAt (fun α => CalcIntegralI1minus2P1General θ0 θf α) 0 := by
  unfold CalcIntegralI1minus2P1General
  have h1 : ∀ c : ℝ, ContinuousAt (fun α : ℝ =>
      α * Real.arsinh ((α * Real.sqrt (1 - α ^ 2) * c) / (α ^ 2 - 1))) 0 := by
    intro c
    refine continuousAt_id.mul (Real.continuous_arsinh.continuousAt.comp ?_)
    refine ContinuousAt.div ?_ ?_ (by norm_num)
    · fun_prop
    · fun_prop
  have h2 : ∀ c : ℝ, ContinuousAt (fun α : ℝ =>
      Real.sqrt (α ^ 2 * c ^ 2 - α ^ 2 + 1) / c) 0 := by
    intro c
    fun_prop
  exact (((h1 (Real.cos θf)).add (h2 (Real.cos θf))).sub (h1 (Real.cos θ0))).sub
    (h2 (Real.cos θ0))

/-! ## Lemmas on the volume under the interpolant -/

/-- The function `x |x|` is differentiable, with derivative `2 |x|`. -/
theorem hasDerivAt_mul_abs (x : ℝ) : HasDerivAt (fun y : ℝ => y * |y|) (2 * |x|) x := by
  rcases lt_trichotomy x 0 with hx | hx | hx
  · have h := (hasDerivAt_id x).mul (hasDerivAt_abs_neg hx)
    convert h using 1
    simp only [id, abs_of_neg hx]; ring
  · subst hx
    rw [hasDerivAt_iff_isLittleO_nhds_zero]
    simp only [zero_add, abs_zero, mul_zero, sub_zero, smul_eq_mul]
    rw [Asymptotics.isLittleO_iff]
    intro c hc
    have : ∀ᶠ h : ℝ in 𝓝 0, |h| < c := by
      have := Metric.ball_mem_nhds (0 : ℝ) hc
      filter_upwards [this] with h hh
      simpa [Real.dist_eq] using hh
    filter_upwards [this] with h hh
    rw [norm_mul, Real.norm_eq_abs, Real.norm_eq_abs, abs_abs, mul_comm]
    exact mul_le_mul_of_nonneg_right hh.le (abs_nonneg h)
  · have h := (hasDerivAt_id x).mul (hasDerivAt_abs_pos hx)
    convert h using 1
    simp only [id, abs_of_pos hx]; ring

/-- The function `|x| ^ 3` is differentiable, with derivative `3 x |x|`. -/
theorem hasDerivAt_abs_cube (x : ℝ) : HasDerivAt (fun y : ℝ => |y| ^ 3) (3 * (x * |x|)) x := by
  have h := (hasDerivAt_id x).mul (hasDerivAt_mul_abs x)
  have e : (fun y : ℝ => |y| ^ 3) = fun y : ℝ => id y * (y * |y|) := by
    funext y
    have : |y| ^ 2 = y ^ 2 := sq_abs y
    simp only [id]
    calc |y| ^ 3 = |y| ^ 2 * |y| := by ring
      _ = y ^ 2 * |y| := by rw [this]
      _ = y * (y * |y|) := by ring
  rw [e]
  convert h using 1
  simp only [id]; ring

/-- Integral of `|B - c t|` for `t` from `0` to `X`. -/
theorem integral_abs_affine (B c X : ℝ) (hc : c ≠ 0) :
    ∫ t in (0 : ℝ)..X, |B - c * t| = (B * |B| - (B - c * X) * |B - c * X|) / (2 * c) := by
  have hd : ∀ t ∈ Set.uIcc (0 : ℝ) X,
      HasDerivAt (fun t : ℝ => -((B - c * t) * |B - c * t|) / (2 * c)) (|B - c * t|) t := by
    intro t _
    have h1 : HasDerivAt (fun t : ℝ => B - c * t) (-c) t := by
      have := ((hasDerivAt_id t).const_mul c).const_sub B
      simpa using this
    have h2 := ((hasDerivAt_mul_abs (B - c * t)).comp t h1).neg.div_const (2 * c)
    convert h2 using 1
    field_simp
    ring
  rw [intervalIntegral.integral_eq_sub_of_hasDerivAt hd
    (Continuous.intervalIntegrable (by fun_prop) _ _)]
  simp only [mul_zero, sub_zero]
  field_simp
  ring

/-- Integral of `D |D|` for the affine `D = v3 + s k` and `s` from `0` to `1`. -/
theorem integral_affine_mul_abs (v3 k : ℝ) (hk : k ≠ 0) :
    ∫ s in (0 : ℝ)..1, (v3 + s * k) * |v3 + s * k| =
      (|v3 + k| ^ 3 - |v3| ^ 3) / (3 * k) := by
  have hd : ∀ s ∈ Set.uIcc (0 : ℝ) 1,
      HasDerivAt (fun s : ℝ => |v3 + s * k| ^ 3 / (3 * k)) ((v3 + s * k) * |v3 + s * k|) s := by
    intro s _
    have h1 : HasDerivAt (fun s : ℝ => v3 + s * k) k s := by
      have := ((hasDerivAt_id s).mul_const k).const_add v3
      simpa using this
    have h2 := ((hasDerivAt_abs_cube (v3 + s * k)).comp s h1).div_const (3 * k)
    convert h2 using 1
    field_simp
    ring
  rw [intervalIntegral.integral_eq_sub_of_hasDerivAt hd
    (Continuous.intervalIntegrable (by fun_prop) _ _)]
  simp only [zero_mul, add_zero, one_mul]
  field_simp

theorem integral_affine (B c X : ℝ) :
    ∫ t in (0 : ℝ)..X, (B + t * c) = B * X + c * X ^ 2 / 2 := by
  have hd : ∀ t ∈ Set.uIcc (0 : ℝ) X,
      HasDerivAt (fun t : ℝ => B * t + c * t ^ 2 / 2) (B + t * c) t := by
    intro t _
    have h := ((hasDerivAt_id t).const_mul B).add
      ((((hasDerivAt_id t).pow 2).const_mul c).div_const 2)
    convert h using 1
    simp only [id]; ring
  rw [intervalIntegral.integral_eq_sub_of_hasDerivAt hd
    (Continuous.intervalIntegrable (by fun_prop) _ _)]
  ring

/-- Integral of a cubic given by its coefficients. -/
theorem integral_quadratic (c0 c1 c2 : ℝ) :
    ∫ s in (0 : ℝ)..1, (c0 + c1 * s + c2 * s ^ 2) = c0 + c1 / 2 + c2 / 3 := by
  have hd : ∀ s ∈ Set.uIcc (0 : ℝ) 1,
      HasDerivAt (fun s : ℝ => c0 * s + c1 * s ^ 2 / 2 + c2 * s ^ 3 / 3)
        (c0 + c1 * s + c2 * s ^ 2) s := by
    intro s _
    have h := (((hasDerivAt_id s).const_mul c0).add
      ((((hasDerivAt_id s).pow 2).const_mul c1).div_const 2)).add
      ((((hasDerivAt_id s).pow 3).const_mul c2).div_const 3)
    convert h using 1
    simp only [id]; ring
  rw [intervalIntegral.integral_eq_sub_of_hasDerivAt hd
    (Continuous.intervalIntegrable (by fun_prop) _ _)]
  ring

theorem integral_interpolant (v1 v2 v3 : ℝ) :
    ∫ s in (0 : ℝ)..1, ∫ t in (0 : ℝ)..(1 - s), interpolant v1 v2 v3 s t =
      (v1 + v2 + v3) / 6 := by
  have hin : ∀ s : ℝ, ∫ t in (0 : ℝ)..(1 - s), interpolant v1 v2 v3 s t =
      (v1 + (v3 - v1) / 2) + (v2 - v1 - v1 - (v3 - v1)) * s +
        (-(v2 - v1) + (v3 - v1) / 2) * s ^ 2 := by
    intro s
    unfold interpolant
    rw [integral_affine]
    ring
  simp only [hin]
  rw [integral_quadratic]
  ring

theorem integral_abs_interpolant (v1 v2 v3 : ℝ) (h1 : 0 < v1) (h2 : 0 < v2) (h3 : v3 < 0) :
    ∫ s in (0 : ℝ)..1, ∫ t in (0 : ℝ)..(1 - s), |interpolant v1 v2 v3 s t| =
      ((v1 ^ 2 + v1 * v2 + v2 ^ 2) / 3 - (v2 ^ 3 + v3 ^ 3) / (3 * (v2 - v3))) /
        (2 * (v1 - v3)) := by
  have hc : v1 - v3 ≠ 0 := by linarith
  have hk : v2 - v3 ≠ 0 := by linarith
  have hin : ∀ s : ℝ, ∫ t in (0 : ℝ)..(1 - s), |interpolant v1 v2 v3 s t| =
      ((v1 + s * (v2 - v1)) * |v1 + s * (v2 - v1)| -
        (v3 + s * (v2 - v3)) * |v3 + s * (v2 - v3)|) / (2 * (v1 - v3)) := by
    intro s
    have e : ∀ t : ℝ, interpolant v1 v2 v3 s t = (v1 + s * (v2 - v1)) - (v1 - v3) * t := by
      intro t; unfold interpolant; ring
    simp only [e]
    rw [integral_abs_affine _ _ _ hc]
    have e2 : v1 + s * (v2 - v1) - (v1 - v3) * (1 - s) = v3 + s * (v2 - v3) := by ring
    rw [e2]
  simp only [hin]
  rw [intervalIntegral.integral_div, intervalIntegral.integral_sub
    (Continuous.intervalIntegrable (by fun_prop) _ _)
    (Continuous.intervalIntegrable (by fun_prop) _ _)]
  have hB : ∫ s in (0 : ℝ)..1, (v1 + s * (v2 - v1)) * |v1 + s * (v2 - v1)| =
      (v1 ^ 2 + v1 * v2 + v2 ^ 2) / 3 := by
    have hcongr : Set.EqOn (fun s : ℝ => (v1 + s * (v2 - v1)) * |v1 + s * (v2 - v1)|)
        (fun s : ℝ => v1 ^ 2 + (2 * v1 * (v2 - v1)) * s + (v2 - v1) ^ 2 * s ^ 2)
        (Set.uIcc (0 : ℝ) 1) := by
      intro s hs
      rw [Set.uIcc_of_le zero_le_one] at hs
      have hpos : 0 ≤ v1 + s * (v2 - v1) := by
        have : v1 + s * (v2 - v1) = (1 - s) * v1 + s * v2 := by ring
        rw [this]
        have := mul_nonneg (sub_nonneg.mpr hs.2) h1.le
        have := mul_nonneg hs.1 h2.le
        linarith
      simp only [abs_of_nonneg hpos]
      ring
    rw [intervalIntegral.integral_congr hcongr, integral_quadratic]
    ring
  have hD : ∫ s in (0 : ℝ)..1, (v3 + s * (v2 - v3)) * |v3 + s * (v2 - v3)| =
      (v2 ^ 3 + v3 ^ 3) / (3 * (v2 - v3)) := by
    rw [integral_affine_mul_abs _ _ hk]
    have e : v3 + (v2 - v3) = v2 := by ring
    rw [e, abs_of_pos h2, abs_of_neg h3]
    congr 1
    ring
  rw [hB, hD]

theorem norm_sub_pos_of_ne (p1 p2 : Vector3) (h : p1 ≠ p2) : 0 < (p2 - p1).norm := by
  apply Real.sqrt_pos.mpr
  rcases (Vector3.squaredNorm_nonneg (p2 - p1)).lt_or_eq with h0 | h0
  · exact h0
  · exfalso
    apply h
    simp only [Vector3.squaredNorm, Vector3.sub_x, Vector3.sub_y, Vector3.sub_z] at h0
    have hx : p2.x - p1.x = 0 := by
      nlinarith [mul_self_nonneg (p2.x - p1.x), mul_self_nonneg (p2.y - p1.y),
        mul_self_nonneg (p2.z - p1.z)]
    have hy : p2.y - p1.y = 0 := by
      nlinarith [mul_self_nonneg (p2.x - p1.x), mul_self_nonneg (p2.y - p1.y),
        mul_self_nonneg (p2.z - p1.z)]
    have hz : p2.z - p1.z = 0 := by
      nlinarith [mul_self_nonneg (p2.x - p1.x), mul_self_nonneg (p2.y - p1.y),
        mul_self_nonneg (p2.z - p1.z)]
    ext <;> linarith

/-- Area vectors of the three pieces cut off a triangle, as multiples of the cross
product of its edges. -/
theorem cut_cross (p1 p2 p3 : Vector3) (r1 r2 : ℝ) :
    ((p2 + r2 * (p3 - p2)) - p1).cross ((p1 + r1 * (p3 - p1)) - p1) =
        ((1 - r2) * r1) * (p2 - p1).cross (p3 - p1) ∧
    (p2 - p1).cross ((p2 + r2 * (p3 - p2)) - p1) = r2 * (p2 - p1).cross (p3 - p1) ∧
    ((p1 + r1 * (p3 - p1)) - p3).cross ((p2 + r2 * (p3 - p2)) - p3) =
        ((1 - r1) * (1 - r2)) * (p2 - p1).cross (p3 - p1) := by
  refine ⟨?_, ?_, ?_⟩ <;>
  · ext <;>
    simp only [Vector3.cross_x, Vector3.cross_y, Vector3.cross_z, Vector3.sub_x,
      Vector3.sub_y, Vector3.sub_z, Vector3.add_x, Vector3.add_y, Vector3.add_z,
      Vector3.smul_x, Vector3.smul_y, Vector3.smul_z] <;>
    ring

/-- Closed forms of the two clipped volumes for `v1, v2 > 0 > v3` and `p1 ≠ p2`. -/
theorem clipped_volumes_closed_form (p1 : Vector3) (v1 : ℝ) (p2 : Vector3) (v2 : ℝ)
    (p3 : Vector3) (v3 : ℝ) (h1 : 0 < v1) (h2 : 0 < v2) (h3 : v3 < 0) (h12 : p1 ≠ p2) :
    CalcInterpolatedVolumeExcludingOneNode p1 v1 p2 v2 p3 v3 =
      ((p2 - p1).cross (p3 - p1)).norm *
        ((1 - v2 / (v2 - v3)) * (v1 / (v1 - v3)) * v1 + (v1 + v2) * (v2 / (v2 - v3))) / 6 ∧
    CalcInterpolatedVolumeExcludingTwoNode p1 v1 p2 v2 p3 v3 =
      ((p2 - p1).cross (p3 - p1)).norm *
        ((1 - v1 / (v1 - v3)) * (1 - v2 / (v2 - v3)) * v3) / 6 := by
  have hL := norm_sub_pos_of_ne p1 p2 h12
  have hc1 : 0 < v1 - v3 := by linarith
  have hc2 : 0 < v2 - v3 := by linarith
  have hr1 : 0 ≤ v1 / (v1 - v3) := div_nonneg h1.le hc1.le
  have hr2 : 0 ≤ v2 / (v2 - v3) := div_nonneg h2.le hc2.le
  have hr1' : 0 ≤ 1 - v1 / (v1 - v3) := by
    rw [sub_nonneg, div_le_one hc1]; linarith
  have hr2' : 0 ≤ 1 - v2 / (v2 - v3) := by
    rw [sub_nonneg, div_le_one hc2]; linarith
  obtain ⟨c1, c2, c3⟩ := cut_cross p1 p2 p3 (v1 / (v1 - v3)) (v2 / (v2 - v3))
  constructor
  · unfold CalcInterpolatedVolumeExcludingOneNode CalcVolumeOfTetrahedral
      CalcVolumeOfPyramidWithTrapesiumBase
    simp only [abs_of_pos h1, abs_of_pos h2, abs_of_neg h3, ← sub_eq_add_neg,
      CalcTriangleArea3d_norm]
    rw [c1, c2, Vector3.norm_smul, Vector3.norm_smul, abs_of_nonneg (mul_nonneg hr2' hr1),
      abs_of_nonneg hr2]
    field_simp
    ring
  · unfold CalcInterpolatedVolumeExcludingTwoNode CalcVolumeOfTetrahedral
    simp only [abs_of_pos h1, abs_of_pos h2, abs_of_neg h3, ← sub_eq_add_neg,
      CalcTriangleArea3d_norm]
    rw [c3, Vector3.norm_smul, abs_of_nonneg (mul_nonneg hr1' hr2')]
    ring

theorem unit_right_triangle_cross_norm :
    (((⟨1, 0, 0⟩ : Vector3) - ⟨0, 0, 0⟩).cross ((⟨0, 1, 0⟩ : Vector3) - ⟨0, 0, 0⟩)).norm = 1 :=
  norm_eq_one_of_squaredNorm (by simp [Vector3.squaredNorm])

theorem unit_right_triangle_ne : (⟨0, 0, 0⟩ : Vector3) ≠ ⟨1, 0, 0⟩ := by
  intro h
  have := congrArg Vector3.x h
  simp at this

/-! ## Lemmas on the 2D area and the orientation -/

namespace Vector2

@[simp]
theorem sub_x2 (a b : Vector2) : (a - b).x = a.x - b.x := rfl

@[simp]
theorem sub_y2 (a b : Vector2) : (a - b).y = a.y - b.y := rfl

theorem abs_x_le_norm (a : Vector2) : |a.x| ≤ a.norm := by
  unfold norm squaredNorm
  apply Real.abs_le_sqrt
  nlinarith [mul_self_nonneg a.y]

theorem abs_y_le_norm (a : Vector2) : |a.y| ≤ a.norm := by
  unfold norm squaredNorm
  apply Real.abs_le_sqrt
  nlinarith [mul_self_nonneg a.x]

end Vector2

theorem ten_epsilon_pos : 0 < 10 * epsilon := by
  have := epsilon_pos
  linarith

theorem CalcTriangleOrientation_eq (p1 p2 p3 : Vector2) :
    CalcTriangleOrientation p1 p2 p3 =
      if CalcTriangleArea2d p1 p2 p3 < -(10 * epsilon) then -1
      else if CalcTriangleArea2d p1 p2 p3 > 10 * epsilon then 1 else 0 := by
  simp only [CalcTriangleOrientation, CalcTriangleArea2d]

theorem abs_mul_le_mul {u v U V : ℝ} (hu : |u| ≤ U) (hv : |v| ≤ V) : |u * v| ≤ U * V := by
  rw [abs_mul]
  exact mul_le_mul hu hv (abs_nonneg v) (le_trans (abs_nonneg u) hu)

/-- The area of a triangle whose vertices are within `δ` of a collinear triple, in each
coordinate. -/
theorem area_near_collinear (q1 q2 q3 p1 p2 p3 : Vector2) (δ : ℝ)
    (hcol : CalcTriangleArea2d q1 q2 q3 = 0)
    (h1x : |p1.x - q1.x| ≤ δ) (h1y : |p1.y - q1.y| ≤ δ)
    (h2x : |p2.x - q2.x| ≤ δ) (h2y : |p2.y - q2.y| ≤ δ)
    (h3x : |p3.x - q3.x| ≤ δ) (h3y : |p3.y - q3.y| ≤ δ) :
    |CalcTriangleArea2d p1 p2 p3| ≤
      δ * (|q2.x - q1.x| + |q2.y - q1.y| + |q3.x - q1.x| + |q3.y - q1.y|) + 4 * δ ^ 2 := by
  simp only [CalcTriangleArea2d, Vector2.sub_x2, Vector2.sub_y2] at hcol ⊢
  have he1x : |(p2.x - q2.x) - (p1.x - q1.x)| ≤ 2 * δ := by
    have := abs_sub (p2.x - q2.x) (p1.x - q1.x); linarith
  have he1y : |(p2.y - q2.y) - (p1.y - q1.y)| ≤ 2 * δ := by
    have := abs_sub (p2.y - q2.y) (p1.y - q1.y); linarith
  have he2x : |(p3.x - q3.x) - (p1.x - q1.x)| ≤ 2 * δ := by
    have := abs_sub (p3.x - q3.x) (p1.x - q1.x); linarith
  have he2y : |(p3.y - q3.y) - (p1.y - q1.y)| ≤ 2 * δ := by
    have := abs_sub (p3.y - q3.y) (p1.y - q1.y); linarith
  have t1 := abs_le.mp (abs_mul_le_mul (le_refl |q2.x - q1.x|) he2y)
  have t2 := abs_le.mp (abs_mul_le_mul (le_refl |q2.y - q1.y|) he2x)
  have t3 := abs_le.mp (abs_mul_le_mul he1x (le_refl |q3.y - q1.y|))
  have t4 := abs_le.mp (abs_mul_le_mul he1y (le_refl |q3.x - q1.x|))
  have t5 := abs_le.mp (abs_mul_le_mul he1x he2y)
  have t6 := abs_le.mp (abs_mul_le_mul he1y he2x)
  have hsplit : (p2.x - p1.x) * (p3.y - p1.y) - (p2.y - p1.y) * (p3.x - p1.x) =
      ((q2.x - q1.x) * (q3.y - q1.y) - (q2.y - q1.y) * (q3.x - q1.x)) +
      (q2.x - q1.x) * ((p3.y - q3.y) - (p1.y - q1.y)) -
      (q2.y - q1.y) * ((p3.x - q3.x) - (p1.x - q1.x)) +
      ((p2.x - q2.x) - (p1.x - q1.x)) * (q3.y - q1.y) -
      ((p2.y - q2.y) - (p1.y - q1.y)) * (q3.x - q1.x) +
      ((p2.x - q2.x) - (p1.x - q1.x)) * ((p3.y - q3.y) - (p1.y - q1.y)) -
      ((p2.y - q2.y) - (p1.y - q1.y)) * ((p3.x - q3.x) - (p1.x - q1.x)) := by ring
  have hcol' : (q2.x - q1.x) * (q3.y - q1.y) - (q2.y - q1.y) * (q3.x - q1.x) = 0 := by
    linarith
  rw [hsplit, hcol', abs_le]
  constructor <;> linarith [t1.1, t1.2, t2.1, t2.2, t3.1, t3.2, t4.1, t4.2, t5.1, t5.2,
    t6.1, t6.2]

theorem Vector2_norm_zero_y (c : ℝ) (hc : 0 ≤ c) : (⟨0, c⟩ : Vector2).norm = c := by
  unfold Vector2.norm Vector2.squaredNorm
  simp only [mul_zero, zero_add]
  exact Real.sqrt_mul_self hc

theorem Vector2_sub_self_norm (a : Vector2) : (a - a).norm = 0 := by
  unfold Vector2.norm Vector2.squaredNorm
  simp

/-! ## Lemmas on the 3D area and the tetrahedron -/

theorem norm_neg_eq (a : Vector3) : (-a).norm = a.norm := by
  unfold Vector3.norm Vector3.squaredNorm
  simp only [Vector3.neg_x, Vector3.neg_y, Vector3.neg_z, neg_mul_neg]

theorem CalcVolumeOfTetrahedral_nonneg (p1 p2 p3 : Vector3) (height : ℝ) (h : 0 ≤ height) :
    0 ≤ CalcVolumeOfTetrahedral p1 p2 p3 height := by
  unfold CalcVolumeOfTetrahedral
  simp only []
  exact div_nonneg (mul_nonneg (Vector3.norm_nonneg _) h) (by norm_num)

theorem CalcVolumeOfTetrahedral_neg (p1 p2 p3 : Vector3) (height : ℝ) :
    CalcVolumeOfTetrahedral p1 p2 p3 (-height) = -CalcVolumeOfTetrahedral p1 p2 p3 height := by
  unfold CalcVolumeOfTetrahedral
  simp only []
  ring

theorem unit_two_node_value :
    CalcInterpolatedVolumeExcludingTwoNode ⟨0, 0, 0⟩ 1 ⟨1, 0, 0⟩ 1 ⟨0, 1, 0⟩ (-1) = -(1 / 24) := by
  obtain ⟨-, htwo⟩ := clipped_volumes_closed_form ⟨0, 0, 0⟩ 1 ⟨1, 0, 0⟩ 1 ⟨0, 1, 0⟩ (-1)
    one_pos one_pos (by norm_num) unit_right_triangle_ne
  rw [htwo, unit_right_triangle_cross_norm]
  norm_num

theorem cross_dot_cross (a b c d : Vector3) :
    (a.cross b).dot (c.cross d) = a.dot c * b.dot d - a.dot d * b.dot c := by
  simp only [Vector3.dot, Vector3.cross_x, Vector3.cross_y, Vector3.cross_z]
  ring

/-! ## Lemmas on the dispatch and on the secant integral -/

/-- The syntax of `CalcIntegralI0minus1P1` has the value of the function. -/
theorem CalcIntegralI0minus1P1Code_run (θ0 θf α : ℝ) :
    CalcIntegralI0minus1P1Code.run θ0 θf α = CalcIntegralI0minus1P1 θ0 θf α := by
  simp only [CalcIntegralI0minus1P1Code, Code.run, Expr.eval, CalcIntegralJ0minus1Expr,
    CalcIntegralI0minus1P1GeneralExpr, CalcIntegralI0minus1P1, CalcIntegralJ0minus1,
    CalcIntegralI0minus1P1General, Nat.cast_ofNat, Nat.cast_one, Nat.cast_zero]

/-- The syntax of `CalcIntegralI1minus2P1` has the value of the function. -/
theorem CalcIntegralI1minus2P1Code_run (θ0 θf α : ℝ) :
    CalcIntegralI1minus2P1Code.run θ0 θf α = CalcIntegralI1minus2P1 θ0 θf α := by
  simp only [CalcIntegralI1minus2P1Code, Code.run, Expr.eval, CalcIntegralJ1minus2Expr,
    CalcIntegralI1minus2P1GeneralExpr, CalcIntegralI1minus2P1, CalcIntegralJ1minus2,
    CalcIntegralI1minus2P1General, Nat.cast_ofNat, Nat.cast_one, Nat.cast_zero]

theorem guard_eval (θ0 θf α : ℝ) :
    ((Expr.fabs (Expr.sub (Expr.var Var.alpha) (Expr.lit 0))).eval θ0 θf α <
      (Expr.mul (Expr.lit 10) Expr.eps).eval θ0 θf α) ↔ |α| < 10 * epsilon := by
  simp only [Expr.eval, Nat.cast_ofNat, Nat.cast_zero, sub_zero]

theorem I0minus1P1_path_small (θ0 θf α : ℝ) (h : |α| < 10 * epsilon) :
    CalcIntegralI0minus1P1Code.path θ0 θf α =
      [Expr.fabs (Expr.sub (Expr.var Var.alpha) (Expr.lit 0)),
        Expr.mul (Expr.lit 10) Expr.eps, CalcIntegralJ0minus1Expr] := by
  simp only [CalcIntegralI0minus1P1Code, Code.path, if_pos ((guard_eval θ0 θf α).mpr h)]

theorem I1minus2P1_path_small (θ0 θf α : ℝ) (h : |α| < 10 * epsilon) :
    CalcIntegralI1minus2P1Code.path θ0 θf α =
      [Expr.fabs (Expr.sub (Expr.var Var.alpha) (Expr.lit 0)),
        Expr.mul (Expr.lit 10) Expr.eps, CalcIntegralJ1minus2Expr] := by
  simp only [CalcIntegralI1minus2P1Code, Code.path, if_pos ((guard_eval θ0 θf α).mpr h)]

theorem I0minus1P1_path_large (θ0 θf α : ℝ) (h : 10 * epsilon ≤ |α|) :
    CalcIntegralI0minus1P1Code.path θ0 θf α =
      [Expr.fabs (Expr.sub (Expr.var Var.alpha) (Expr.lit 0)),
        Expr.mul (Expr.lit 10) Expr.eps, CalcIntegralI0minus1P1GeneralExpr] := by
  simp only [CalcIntegralI0minus1P1Code, Code.path,
    if_neg (fun hlt => absurd ((guard_eval θ0 θf α).mp hlt) (not_lt.mpr h))]

theorem I1minus2P1_path_large (θ0 θf α : ℝ) (h : 10 * epsilon ≤ |α|) :
    CalcIntegralI1minus2P1Code.path θ0 θf α =
      [Expr.fabs (Expr.sub (Expr.var Var.alpha) (Expr.lit 0)),
        Expr.mul (Expr.lit 10) Expr.eps, CalcIntegralI1minus2P1GeneralExpr] := by
  simp only [CalcIntegralI1minus2P1Code, Code.path,
    if_neg (fun hlt => absurd ((guard_eval θ0 θf α).mp hlt) (not_lt.mpr h))]

theorem small_path_no_division_by_alpha :
    (∀ e ∈ [Expr.fabs (Expr.sub (Expr.var Var.alpha) (Expr.lit 0)),
        Expr.mul (Expr.lit 10) Expr.eps, CalcIntegralJ0minus1Expr],
      e.dividesBy Var.alpha = false) ∧
    (∀ e ∈ [Expr.fabs (Expr.sub (Expr.var Var.alpha) (Expr.lit 0)),
        Expr.mul (Expr.lit 10) Expr.eps, CalcIntegralJ1minus2Expr],
      e.dividesBy Var.alpha = false) := by
  decide

theorem general_exprs_divide_by_alpha :
    CalcIntegralI0minus1P1GeneralExpr.dividesBy Var.alpha = true ∧
    CalcIntegralI1minus2P1GeneralExpr.dividesBy Var.alpha = true := by
  decide

theorem half_not_small : ¬ (|(1 / 2 : ℝ) - 0| < 10 * epsilon) := by
  rw [sub_zero, abs_of_pos (by norm_num : (0 : ℝ) < 1 / 2)]
  unfold epsilon
  norm_num

/-- Derivative of `log |sec + tan|` where the cosine is positive. -/
theorem hasDerivAt_log_sec_add_tan (θ : ℝ) (hc : 0 < Real.cos θ) :
    HasDerivAt (fun t : ℝ => Real.log |1 / Real.cos t + Real.tan t|) (1 / Real.cos θ) θ := by
  have hc0 : Real.cos θ ≠ 0 := hc.ne'
  have hs : 0 < 1 + Real.sin θ := by
    have h1 := Real.sin_sq_add_cos_sq θ
    have h2 : 0 < Real.cos θ ^ 2 := by positivity
    nlinarith
  have hg : 1 / Real.cos θ + Real.tan θ = (1 + Real.sin θ) / Real.cos θ := by
    rw [Real.tan_eq_sin_div_cos]; field_simp
  have hgpos : 0 < 1 / Real.cos θ + Real.tan θ := by
    rw [hg]; exact div_pos hs hc
  have d1 : HasDerivAt (fun t : ℝ => 1 / Real.cos t)
      ((0 * Real.cos θ - 1 * -Real.sin θ) / Real.cos θ ^ 2) θ :=
    (hasDerivAt_const θ (1 : ℝ)).div (Real.hasDerivAt_cos θ) hc0
  have d2 := Real.hasDerivAt_tan hc0
  have d3 := (d1.add d2).log hgpos.ne'
  have e : (fun t : ℝ => Real.log |1 / Real.cos t + Real.tan t|) =
      fun t : ℝ => Real.log (1 / Real.cos t + Real.tan t) := by
    funext t; rw [Real.log_abs]
  rw [e]
  convert d3 using 1
  rw [hg]
  have h1 := Real.sin_sq_add_cos_sq θ
  field_simp
  ring

/-! ## The claims -/

/-- Claim C1, as amended.  For a triangle with `p1 ≠ p2` and values `v1 > 0`, `v2 > 0`,
`v3 < 0`, the sum of `CalcInterpolatedVolumeExcludingOneNode` and
`CalcInterpolatedVolumeExcludingTwoNode` is the integral over the triangle of the linear
interpolant `v` itself: the two-node piece has the sign of `v3`.  The integral of `|v|`
is the difference of the two, not their sum. -/
theorem clipped_volumes_sum_is_signed_volume (p1 : Vector3) (v1 : ℝ) (p2 : Vector3) (v2 : ℝ)
    (p3 : Vector3) (v3 : ℝ) (h1 : 0 < v1) (h2 : 0 < v2) (h3 : v3 < 0) (h12 : p1 ≠ p2) :
    CalcInterpolatedVolumeExcludingOneNode p1 v1 p2 v2 p3 v3 +
        CalcInterpolatedVolumeExcludingTwoNode p1 v1 p2 v2 p3 v3 =
      signedVolumeUnderInterpolant p1 v1 p2 v2 p3 v3 ∧
    CalcInterpolatedVolumeExcludingOneNode p1 v1 p2 v2 p3 v3 -
        CalcInterpolatedVolumeExcludingTwoNode p1 v1 p2 v2 p3 v3 =
      volumeUnderAbsInterpolant p1 v1 p2 v2 p3 v3 := by
  obtain ⟨hone, htwo⟩ := clipped_volumes_closed_form p1 v1 p2 v2 p3 v3 h1 h2 h3 h12
  have hc1 : v1 - v3 ≠ 0 := by linarith
  have hc2 : v2 - v3 ≠ 0 := by linarith
  constructor
  · rw [hone, htwo, signedVolumeUnderInterpolant, triangleIntegral, integral_interpolant]
    field_simp
    ring
  · rw [hone, htwo, volumeUnderAbsInterpolant, triangleIntegral,
      integral_abs_interpolant v1 v2 v3 h1 h2 h3]
    field_simp
    ring

/-- Witness of claim C1 as amended: the unit right triangle with the values
`1`, `1`, `-1`. -/
theorem clipped_volumes_sum_is_signed_volume_witness :
    (0 : ℝ) < 1 ∧ (-1 : ℝ) < 0 ∧ (⟨0, 0, 0⟩ : Vector3) ≠ ⟨1, 0, 0⟩ ∧
    CalcInterpolatedVolumeExcludingOneNode ⟨0, 0, 0⟩ 1 ⟨1, 0, 0⟩ 1 ⟨0, 1, 0⟩ (-1) +
        CalcInterpolatedVolumeExcludingTwoNode ⟨0, 0, 0⟩ 1 ⟨1, 0, 0⟩ 1 ⟨0, 1, 0⟩ (-1) =
      signedVolumeUnderInterpolant ⟨0, 0, 0⟩ 1 ⟨1, 0, 0⟩ 1 ⟨0, 1, 0⟩ (-1) ∧
    CalcInterpolatedVolumeExcludingOneNode ⟨0, 0, 0⟩ 1 ⟨1, 0, 0⟩ 1 ⟨0, 1, 0⟩ (-1) -
        CalcInterpolatedVolumeExcludingTwoNode ⟨0, 0, 0⟩ 1 ⟨1, 0, 0⟩ 1 ⟨0, 1, 0⟩ (-1) =
      volumeUnderAbsInterpolant ⟨0, 0, 0⟩ 1 ⟨1, 0, 0⟩ 1 ⟨0, 1, 0⟩ (-1) :=
  ⟨one_pos, by norm_num, unit_right_triangle_ne,
    clipped_volumes_sum_is_signed_volume _ _ _ _ _ _ one_pos one_pos (by norm_num)
      unit_right_triangle_ne⟩

/-- Counterexample to claim C1 as stated: on the unit right triangle with the values
`1`, `1`, `-1` the two functions add up to `1/6`, while the integral of `|v|` over the
triangle is `1/4`. -/
theorem clipped_volumes_sum_ne_abs_volume :
    CalcInterpolatedVolumeExcludingOneNode ⟨0, 0, 0⟩ 1 ⟨1, 0, 0⟩ 1 ⟨0, 1, 0⟩ (-1) +
        CalcInterpolatedVolumeExcludingTwoNode ⟨0, 0, 0⟩ 1 ⟨1, 0, 0⟩ 1 ⟨0, 1, 0⟩ (-1) = 1 / 6 ∧
    volumeUnderAbsInterpolant ⟨0, 0, 0⟩ 1 ⟨1, 0, 0⟩ 1 ⟨0, 1, 0⟩ (-1) = 1 / 4 ∧
    CalcInterpolatedVolumeExcludingOneNode ⟨0, 0, 0⟩ 1 ⟨1, 0, 0⟩ 1 ⟨0, 1, 0⟩ (-1) +
        CalcInterpolatedVolumeExcludingTwoNode ⟨0, 0, 0⟩ 1 ⟨1, 0, 0⟩ 1 ⟨0, 1, 0⟩ (-1) ≠
      volumeUnderAbsInterpolant ⟨0, 0, 0⟩ 1 ⟨1, 0, 0⟩ 1 ⟨0, 1, 0⟩ (-1) := by
  obtain ⟨hone, htwo⟩ := clipped_volumes_closed_form ⟨0, 0, 0⟩ 1 ⟨1, 0, 0⟩ 1 ⟨0, 1, 0⟩ (-1)
    one_pos one_pos (by norm_num) unit_right_triangle_ne
  have hsum : CalcInterpolatedVolumeExcludingOneNode ⟨0, 0, 0⟩ 1 ⟨1, 0, 0⟩ 1 ⟨0, 1, 0⟩ (-1) +
      CalcInterpolatedVolumeExcludingTwoNode ⟨0, 0, 0⟩ 1 ⟨1, 0, 0⟩ 1 ⟨0, 1, 0⟩ (-1) = 1 / 6 := by
    rw [hone, htwo, unit_right_triangle_cross_norm]
    norm_num
  have habs : volumeUnderAbsInterpolant ⟨0, 0, 0⟩ 1 ⟨1, 0, 0⟩ 1 ⟨0, 1, 0⟩ (-1) = 1 / 4 := by
    rw [volumeUnderAbsInterpolant, triangleIntegral, unit_right_triangle_cross_norm,
      integral_abs_interpolant 1 1 (-1) one_pos one_pos (by norm_num)]
    norm_num
  refine ⟨hsum, habs, ?_⟩
  rw [hsum, habs]
  norm_num

/-- Claim C2.  When every triangle of the mesh is fit (valid indices, non-degenerate,
finite evaluator result), `CalcRowComplianceMatrix` returns a row as long as the list of
nodes, whose entry at node `j` is the sum over the triangles of what each adds at `j`:
the evaluator scalar of every vertex slot whose index is `j`.  A node that no triangle
uses has entry `0`. -/
theorem row_entry_is_sum_of_contributions (eval : Evaluator) (points : List Vector3)
    (tris : List Vector3i) (node_A : Vector3) (k : ℝ)
    (hfit : ∀ t ∈ tris, TriangleFit eval points node_A k t) :
    ∃ row, CalcRowComplianceMatrix eval points tris node_A k = some row ∧
      row.length = points.length ∧
      (∀ j, j < points.length →
        row[j]? = some (tris.map fun t =>
          (ElementCompliance eval points node_A k t).elim 0
            fun e => contributionAt t e j).sum) ∧
      (∀ j, j < points.length →
        (∀ t ∈ tris, t.i0 ≠ (j : Int) ∧ t.i1 ≠ (j : Int) ∧ t.i2 ≠ (j : Int)) →
        row[j]? = some 0) := by
  obtain ⟨row, hrow, hlen, hget⟩ := foldlM_row eval points node_A k tris
    (List.replicate points.length 0) (by simp)
    (fun t ht => (TriangleFit_iff eval points node_A k t).mp (hfit t ht))
  have hentry : ∀ j, j < points.length →
      row[j]? = some (tris.map fun t =>
        (ElementCompliance eval points node_A k t).elim 0
          fun e => contributionAt t e j).sum := by
    intro j hj
    have hjr : j < row.length := by rw [hlen]; exact hj
    have h := hget j
    rw [List.getD_eq_getElem?_getD, List.getElem?_eq_getElem hjr] at h
    simp only [Option.getD_some] at h
    rw [List.getElem?_eq_getElem hjr, h]
    simp [List.getD_eq_getElem?_getD, hj]
  refine ⟨row, hrow, hlen, hentry, ?_⟩
  intro j hj hno
  rw [hentry j hj]
  congr 1
  apply List.sum_eq_zero
  intro x hx
  obtain ⟨t, ht, rfl⟩ := List.mem_map.mp hx
  obtain ⟨a, b, c⟩ := hno t ht
  cases ElementCompliance eval points node_A k t with
  | none => rfl
  | some e => simp [contributionAt, a, b, c]

/-- Witness of claim C2: the unit square made of two triangles sharing the edge of
nodes `0` and `2`, with an evaluator that returns `(1, 2, 3)` for every triangle; the
row is `[1 + 1, 2, 3 + 2, 3]`. -/
theorem row_entry_is_sum_of_contributions_witness :
    (∀ t ∈ [(⟨0, 1, 2⟩ : Vector3i), ⟨0, 2, 3⟩],
      TriangleFit (fun _ _ _ _ _ => some ⟨1, 2, 3⟩)
        [⟨0, 0, 0⟩, ⟨1, 0, 0⟩, ⟨1, 1, 0⟩, ⟨0, 1, 0⟩] ⟨1 / 2, 1 / 2, 1⟩ 1 t) ∧
    CalcRowComplianceMatrix (fun _ _ _ _ _ => some ⟨1, 2, 3⟩)
      [⟨0, 0, 0⟩, ⟨1, 0, 0⟩, ⟨1, 1, 0⟩, ⟨0, 1, 0⟩] [⟨0, 1, 2⟩, ⟨0, 2, 3⟩]
      ⟨1 / 2, 1 / 2, 1⟩ 1 = some [2, 2, 5, 3] ∧
    ∃ row, CalcRowComplianceMatrix (fun _ _ _ _ _ => some ⟨1, 2, 3⟩)
        [⟨0, 0, 0⟩, ⟨1, 0, 0⟩, ⟨1, 1, 0⟩, ⟨0, 1, 0⟩] [⟨0, 1, 2⟩, ⟨0, 2, 3⟩]
        ⟨1 / 2, 1 / 2, 1⟩ 1 = some row ∧
      row.length = [(⟨0, 0, 0⟩ : Vector3), ⟨1, 0, 0⟩, ⟨1, 1, 0⟩, ⟨0, 1, 0⟩].length ∧
      (∀ j, j < [(⟨0, 0, 0⟩ : Vector3), ⟨1, 0, 0⟩, ⟨1, 1, 0⟩, ⟨0, 1, 0⟩].length →
        row[j]? = some ([(⟨0, 1, 2⟩ : Vector3i), ⟨0, 2, 3⟩].map fun t =>
          (ElementCompliance (fun _ _ _ _ _ => some ⟨1, 2, 3⟩)
            [⟨0, 0, 0⟩, ⟨1, 0, 0⟩, ⟨1, 1, 0⟩, ⟨0, 1, 0⟩] ⟨1 / 2, 1 / 2, 1⟩ 1 t).elim 0
            fun e => contributionAt t e j).sum) ∧
      (∀ j, j < [(⟨0, 0, 0⟩ : Vector3), ⟨1, 0, 0⟩, ⟨1, 1, 0⟩, ⟨0, 1, 0⟩].length →
        (∀ t ∈ [(⟨0, 1, 2⟩ : Vector3i), ⟨0, 2, 3⟩],
          t.i0 ≠ (j : Int) ∧ t.i1 ≠ (j : Int) ∧ t.i2 ≠ (j : Int)) →
        row[j]? = some 0) :=
  ⟨unit_square_mesh_fit, unit_square_row,
    row_entry_is_sum_of_contributions _ _ _ _ _ unit_square_mesh_fit⟩

/-- Claim C3.  `CalcRowComplianceMatrix` is all-or-nothing: it returns a row exactly when
every triangle of the mesh is fit (valid indices, local frame built, finite evaluator
result), and as soon as one triangle is not, no row at all is returned. -/
theorem row_all_or_nothing (eval : Evaluator) (points : List Vector3)
    (tris : List Vector3i) (node_A : Vector3) (k : ℝ) :
    ((∃ row, CalcRowComplianceMatrix eval points tris node_A k = some row) ↔
      ∀ t ∈ tris, TriangleFit eval points node_A k t) ∧
    ((∃ t ∈ tris, ¬ TriangleFit eval points node_A k t) →
      CalcRowComplianceMatrix eval points tris node_A k = none) := by
  have hnone : (∃ t ∈ tris, ¬ TriangleFit eval points node_A k t) →
      CalcRowComplianceMatrix eval points tris node_A k = none := by
    rintro ⟨t, ht, hnf⟩
    apply foldlM_none
    refine ⟨t, ht, ?_⟩
    cases he : ElementCompliance eval points node_A k t with
    | none => rfl
    | some e => exact absurd ((TriangleFit_iff eval points node_A k t).mpr ⟨e, he⟩) hnf
  refine ⟨⟨?_, ?_⟩, hnone⟩
  · rintro ⟨row, hrow⟩ t ht
    by_contra hnf
    rw [hnone ⟨t, ht, hnf⟩] at hrow
    cases hrow
  · intro hfit
    obtain ⟨row, hrow, -⟩ := foldlM_row eval points node_A k tris
      (List.replicate points.length 0) (by simp)
      (fun t ht => (TriangleFit_iff eval points node_A k t).mp (hfit t ht))
    exact ⟨row, hrow⟩

/-- Claim C4.  For a non-degenerate triangle the frame is built, and the columns
`x_T`, `y_T`, `z_T` of its rotation part have length one, are pairwise orthogonal and
right-handed (`x_T × y_T = z_T`, determinant `1`), with `z_T` the unit vector of
`(p2 - p1) × (p3 - p1)`. -/
theorem frame_rotation_right_handed_orthonormal (p1 p2 p3 xA : Vector3)
    (h : NonDegenerate p1 p2 p3) :
    ∃ X, CalcTransformationFromTriangleFrame p1 p2 p3 xA = some X ∧
      X.linear.col0.norm = 1 ∧ X.linear.col1.norm = 1 ∧ X.linear.col2.norm = 1 ∧
      X.linear.col0.dot X.linear.col1 = 0 ∧ X.linear.col1.dot X.linear.col2 = 0 ∧
      X.linear.col0.dot X.linear.col2 = 0 ∧
      X.linear.col0.cross X.linear.col1 = X.linear.col2 ∧
      X.linear.determinant = 1 ∧
      X.linear.col2 = ((p2 - p1).cross (p3 - p1)) / ((p2 - p1).cross (p3 - p1)).norm := by
  obtain ⟨-, -, X, hX, -, h2, h1, -, hx, hz, hxz⟩ := frame_facts p1 p2 p3 xA h
  obtain ⟨f1, f2, f3, f4, f5⟩ := unit_frame_facts _ _ hx hz hxz
  refine ⟨X, hX, norm_eq_one_of_squaredNorm hx, ?_, norm_eq_one_of_squaredNorm hz,
    ?_, ?_, hxz, ?_, ?_, h2⟩
  · rw [h1]; exact norm_eq_one_of_squaredNorm f1
  · rw [h1]; exact f2
  · rw [h1]; exact f3
  · rw [h1]; exact f4
  · unfold Matrix3d.determinant; rw [h1]; exact f5

/-- Witness of claim C4: the unit right triangle `(0,0,0)`, `(1,0,0)`, `(0,1,0)` seen
from the point `(1/2, 1/2, 1)`, whose normal is `(0, 0, 1)`. -/
theorem frame_rotation_right_handed_orthonormal_witness :
    NonDegenerate ⟨0, 0, 0⟩ ⟨1, 0, 0⟩ ⟨0, 1, 0⟩ ∧
    ∃ X, CalcTransformationFromTriangleFrame ⟨0, 0, 0⟩ ⟨1, 0, 0⟩ ⟨0, 1, 0⟩
        ⟨1 / 2, 1 / 2, 1⟩ = some X ∧
      X.linear.col0.norm = 1 ∧ X.linear.col1.norm = 1 ∧ X.linear.col2.norm = 1 ∧
      X.linear.col0.dot X.linear.col1 = 0 ∧ X.linear.col1.dot X.linear.col2 = 0 ∧
      X.linear.col0.dot X.linear.col2 = 0 ∧
      X.linear.col0.cross X.linear.col1 = X.linear.col2 ∧
      X.linear.determinant = 1 ∧ X.linear.col2 = ⟨0, 0, 1⟩ := by
  refine ⟨NonDegenerate_unit_right_triangle, ?_⟩
  have h := frame_rotation_right_handed_orthonormal ⟨0, 0, 0⟩ ⟨1, 0, 0⟩ ⟨0, 1, 0⟩
    ⟨1 / 2, 1 / 2, 1⟩ NonDegenerate_unit_right_triangle
  rw [unit_right_triangle_normal] at h
  exact h

/-- Claim C5.  For a non-degenerate triangle the inverse frame sends the evaluation
point `xA` to `(0, 0, d)` with `d = n · (xA - p1)` for the unit normal `n`; the origin of
the frame is `xA - d n`, which lies in the plane of the triangle: it is the orthogonal
projection of `xA` onto that plane, and `d` is the signed distance of `xA` to it. -/
theorem evaluation_point_local_coordinates (p1 p2 p3 xA : Vector3)
    (h : NonDegenerate p1 p2 p3) :
    ∃ X, CalcTransformationFromTriangleFrame p1 p2 p3 xA = some X ∧
      X.inverse.apply xA =
        ⟨0, 0, (((p2 - p1).cross (p3 - p1)) / ((p2 - p1).cross (p3 - p1)).norm).dot (xA - p1)⟩ ∧
      X.translation = xA -
        (((p2 - p1).cross (p3 - p1)) / ((p2 - p1).cross (p3 - p1)).norm).dot (xA - p1) *
          (((p2 - p1).cross (p3 - p1)) / ((p2 - p1).cross (p3 - p1)).norm) ∧
      ((p2 - p1).cross (p3 - p1)).dot (X.translation - p1) = 0 := by
  obtain ⟨hN, -, X, hX, -, h2, h1, ht, hx, hz, hxz⟩ := frame_facts p1 p2 p3 xA h
  obtain ⟨-, -, f3, -, -⟩ := unit_frame_facts _ _ hx hz hxz
  rw [← h2]
  simp only [Vector3.squaredNorm] at hz
  simp only [Vector3.dot] at hxz
  have f3' := f3
  rw [← h1] at f3'
  simp only [Vector3.dot] at f3'
  have hn : (p2 - p1).cross (p3 - p1) =
      ((p2 - p1).cross (p3 - p1)).norm * X.linear.col2 := by
    rw [h2]; ext <;> simp <;> field_simp
  refine ⟨X, hX, ?_, ?_, ?_⟩
  · rw [inverse_apply, ht]
    ext
    · simp only [Vector3.dot, Vector3.sub_x, Vector3.sub_y, Vector3.sub_z, Vector3.add_x,
        Vector3.add_y, Vector3.add_z, Vector3.smul_x, Vector3.smul_y, Vector3.smul_z]
      linear_combination (-(X.linear.col2.x * (p1.x - xA.x) + X.linear.col2.y * (p1.y - xA.y) +
        X.linear.col2.z * (p1.z - xA.z))) * hxz
    · simp only [Vector3.dot, Vector3.sub_x, Vector3.sub_y, Vector3.sub_z, Vector3.add_x,
        Vector3.add_y, Vector3.add_z, Vector3.smul_x, Vector3.smul_y, Vector3.smul_z]
      linear_combination (-(X.linear.col2.x * (p1.x - xA.x) + X.linear.col2.y * (p1.y - xA.y) +
        X.linear.col2.z * (p1.z - xA.z))) * f3'
    · simp only [Vector3.dot, Vector3.sub_x, Vector3.sub_y, Vector3.sub_z, Vector3.add_x,
        Vector3.add_y, Vector3.add_z, Vector3.smul_x, Vector3.smul_y, Vector3.smul_z]
      linear_combination (-(X.linear.col2.x * (p1.x - xA.x) + X.linear.col2.y * (p1.y - xA.y) +
        X.linear.col2.z * (p1.z - xA.z))) * hz
  · rw [ht]
    ext <;> simp [Vector3.dot] <;> ring
  · rw [ht, hn]
    simp only [Vector3.dot, Vector3.sub_x, Vector3.sub_y, Vector3.sub_z, Vector3.add_x,
        Vector3.add_y, Vector3.add_z, Vector3.smul_x, Vector3.smul_y, Vector3.smul_z]
    linear_combination (((p2 - p1).cross (p3 - p1)).norm *
      (X.linear.col2.x * (p1.x - xA.x) + X.linear.col2.y * (p1.y - xA.y) +
        X.linear.col2.z * (p1.z - xA.z))) * hz

/-- Witness of claim C5: the unit right triangle `(0,0,0)`, `(1,0,0)`, `(0,1,0)` seen
from the point `(1/2, 1/2, 1)`, at distance `1` above the point `(1/2, 1/2, 0)` of the plane. -/
theorem evaluation_point_local_coordinates_witness :
    NonDegenerate ⟨0, 0, 0⟩ ⟨1, 0, 0⟩ ⟨0, 1, 0⟩ ∧
    ∃ X, CalcTransformationFromTriangleFrame ⟨0, 0, 0⟩ ⟨1, 0, 0⟩ ⟨0, 1, 0⟩
        ⟨1 / 2, 1 / 2, 1⟩ = some X ∧
      X.inverse.apply ⟨1 / 2, 1 / 2, 1⟩ = ⟨0, 0, 1⟩ ∧
      X.translation = ⟨1 / 2, 1 / 2, 0⟩ := by
  refine ⟨NonDegenerate_unit_right_triangle, ?_⟩
  obtain ⟨X, hX, h1, h2, -⟩ := evaluation_point_local_coordinates ⟨0, 0, 0⟩ ⟨1, 0, 0⟩
    ⟨0, 1, 0⟩ ⟨1 / 2, 1 / 2, 1⟩ NonDegenerate_unit_right_triangle
  rw [unit_right_triangle_normal] at h1 h2
  refine ⟨X, hX, ?_, ?_⟩
  · rw [h1]; ext <;> simp [Vector3.dot]
  · rw [h2]; ext <;> simp [Vector3.dot]

/-- Claim C6.  For a non-degenerate triangle the three vertices have local
`z`-coordinate `0` in the frame of the triangle. -/
theorem vertices_local_z_zero (p1 p2 p3 xA : Vector3)
    (h : NonDegenerate p1 p2 p3) :
    ∃ X, CalcTransformationFromTriangleFrame p1 p2 p3 xA = some X ∧
      (X.inverse.apply p1).z = 0 ∧ (X.inverse.apply p2).z = 0 ∧
      (X.inverse.apply p3).z = 0 := by
  obtain ⟨-, -, X, hX, -, h2, -, ht, -, hz, -⟩ := frame_facts p1 p2 p3 xA h
  obtain ⟨e2, e3⟩ := normal_dot_edges p1 p2 p3 ((p2 - p1).cross (p3 - p1)).norm
  rw [← h2] at e2 e3
  simp only [Vector3.squaredNorm] at hz
  simp only [Vector3.dot, Vector3.sub_x, Vector3.sub_y, Vector3.sub_z] at e2 e3
  refine ⟨X, hX, ?_, ?_, ?_⟩
  · rw [inverse_apply, ht]
    simp only [Vector3.dot, Vector3.sub_x, Vector3.sub_y, Vector3.sub_z, Vector3.add_x,
      Vector3.add_y, Vector3.add_z, Vector3.smul_x, Vector3.smul_y, Vector3.smul_z]
    linear_combination (-(X.linear.col2.x * (p1.x - xA.x) + X.linear.col2.y * (p1.y - xA.y) +
      X.linear.col2.z * (p1.z - xA.z))) * hz
  · rw [inverse_apply, ht]
    simp only [Vector3.dot, Vector3.sub_x, Vector3.sub_y, Vector3.sub_z, Vector3.add_x,
      Vector3.add_y, Vector3.add_z, Vector3.smul_x, Vector3.smul_y, Vector3.smul_z]
    linear_combination (-(X.linear.col2.x * (p1.x - xA.x) + X.linear.col2.y * (p1.y - xA.y) +
      X.linear.col2.z * (p1.z - xA.z))) * hz + e2
  · rw [inverse_apply, ht]
    simp only [Vector3.dot, Vector3.sub_x, Vector3.sub_y, Vector3.sub_z, Vector3.add_x,
      Vector3.add_y, Vector3.add_z, Vector3.smul_x, Vector3.smul_y, Vector3.smul_z]
    linear_combination (-(X.linear.col2.x * (p1.x - xA.x) + X.linear.col2.y * (p1.y - xA.y) +
      X.linear.col2.z * (p1.z - xA.z))) * hz + e3

/-- Witness of claim C6: the unit right triangle `(0,0,0)`, `(1,0,0)`, `(0,1,0)` seen
from the point `(1/2, 1/2, 1)`. -/
theorem vertices_local_z_zero_witness :
    NonDegenerate ⟨0, 0, 0⟩ ⟨1, 0, 0⟩ ⟨0, 1, 0⟩ ∧
    ∃ X, CalcTransformationFromTriangleFrame ⟨0, 0, 0⟩ ⟨1, 0, 0⟩ ⟨0, 1, 0⟩
        ⟨1 / 2, 1 / 2, 1⟩ = some X ∧
      (X.inverse.apply ⟨0, 0, 0⟩).z = 0 ∧ (X.inverse.apply ⟨1, 0, 0⟩).z = 0 ∧
      (X.inverse.apply ⟨0, 1, 0⟩).z = 0 :=
  ⟨NonDegenerate_unit_right_triangle,
    vertices_local_z_zero _ _ _ _ NonDegenerate_unit_right_triangle⟩

/-- Claim C7, as amended.  `CalcTransformationFromTriangleFrame` fails exactly when the
length of `(p2 - p1) × (p3 - p1)`, which is twice the area, is at or below `10` times
machine epsilon; in terms of the area vector `CalcTriangleArea`, exactly when its length
is at or below `5` times machine epsilon.  It succeeds for every triangle above that
tolerance. -/
theorem frame_fails_iff_cross_norm_le (p1 p2 p3 xA : Vector3) :
    (CalcTransformationFromTriangleFrame p1 p2 p3 xA = none ↔
      ((p2 - p1).cross (p3 - p1)).norm ≤ 10 * epsilon) ∧
    (CalcTransformationFromTriangleFrame p1 p2 p3 xA = none ↔
      (CalcTriangleArea3d p1 p2 p3).norm ≤ 5 * epsilon) ∧
    ((CalcTransformationFromTriangleFrame p1 p2 p3 xA).isSome = true ↔
      5 * epsilon < (CalcTriangleArea3d p1 p2 p3).norm) := by
  have key := frame_eq_none_iff p1 p2 p3 xA
  have key2 : CalcTransformationFromTriangleFrame p1 p2 p3 xA = none ↔
      (CalcTriangleArea3d p1 p2 p3).norm ≤ 5 * epsilon := by
    rw [key, CalcTriangleArea3d_norm]
    constructor <;> intro h <;> linarith
  refine ⟨key, key2, ?_⟩
  rw [← not_le, ← key2, Option.isSome_iff_ne_none]

/-- Counterexample to claim C7 as stated: the triangle `(0,0,0)`, `(1,0,0)`,
`(0, 15 ε, 0)` has an area vector of length `7.5 ε`, below `10 ε`, and its frame is
built all the same. -/
theorem frame_succeeds_below_area_tolerance :
    (CalcTriangleArea3d ⟨0, 0, 0⟩ ⟨1, 0, 0⟩ ⟨0, 15 * epsilon, 0⟩).norm ≤ 10 * epsilon ∧
    (CalcTransformationFromTriangleFrame ⟨0, 0, 0⟩ ⟨1, 0, 0⟩ ⟨0, 15 * epsilon, 0⟩
      ⟨0, 0, 1⟩).isSome = true := by
  have hn : (((⟨1, 0, 0⟩ : Vector3) - ⟨0, 0, 0⟩).cross
      ((⟨0, 15 * epsilon, 0⟩ : Vector3) - ⟨0, 0, 0⟩)).norm = 15 * epsilon := by
    have hs : (((⟨1, 0, 0⟩ : Vector3) - ⟨0, 0, 0⟩).cross
        ((⟨0, 15 * epsilon, 0⟩ : Vector3) - ⟨0, 0, 0⟩)).squaredNorm =
        (15 * epsilon) * (15 * epsilon) := by
      simp only [Vector3.squaredNorm, Vector3.cross_x, Vector3.cross_y, Vector3.cross_z,
        Vector3.sub_x, Vector3.sub_y, Vector3.sub_z]
      ring
    unfold Vector3.norm
    rw [hs]
    exact Real.sqrt_mul_self (by have := epsilon_pos; linarith)
  have he := epsilon_pos
  constructor
  · rw [CalcTriangleArea3d_norm, hn]; linarith
  · rw [Option.isSome_iff_ne_none]
    intro hnone
    have := (frame_eq_none_iff _ _ _ _).mp hnone
    rw [hn] at this
    linarith

/-- Claim C8.  For a non-degenerate triangle the first edge is the local `x`-axis: in
local coordinates `p2 - p1` is `(|p2 - p1|, 0, 0)`, so `p1` and `p2` have the same local
`y` and the local `x` of `p2` exceeds that of `p1` by the length of the edge. -/
theorem local_x_axis_along_first_edge (p1 p2 p3 xA : Vector3)
    (h : NonDegenerate p1 p2 p3) :
    ∃ X, CalcTransformationFromTriangleFrame p1 p2 p3 xA = some X ∧
      X.inverse.apply p2 - X.inverse.apply p1 = ⟨(p2 - p1).norm, 0, 0⟩ ∧
      (X.inverse.apply p2).y = (X.inverse.apply p1).y ∧
      (X.inverse.apply p2).x = (X.inverse.apply p1).x + (p2 - p1).norm := by
  obtain ⟨-, hL, X, hX, h0, h2, h1, -, hx, hz, hxz⟩ := frame_facts p1 p2 p3 xA h
  obtain ⟨-, f2, -, -, -⟩ := unit_frame_facts _ _ hx hz hxz
  rw [← h1] at f2
  obtain ⟨e2, -⟩ := normal_dot_edges p1 p2 p3 ((p2 - p1).cross (p3 - p1)).norm
  rw [← h2] at e2
  have hu : p2 - p1 = (p2 - p1).norm * X.linear.col0 := by
    rw [h0]; ext <;> simp <;> field_simp
  have hxx : X.linear.col0.dot (p2 - p1) = (p2 - p1).norm := by
    have : X.linear.col0.dot ((p2 - p1).norm * X.linear.col0) =
        (p2 - p1).norm * X.linear.col0.squaredNorm := by
      simp only [Vector3.dot, Vector3.squaredNorm, Vector3.smul_x, Vector3.smul_y,
        Vector3.smul_z]; ring
    rw [← hu, hx, mul_one] at this
    exact this
  have hyy : X.linear.col1.dot (p2 - p1) = 0 := by
    have : X.linear.col1.dot ((p2 - p1).norm * X.linear.col0) =
        (p2 - p1).norm * X.linear.col0.dot X.linear.col1 := by
      simp only [Vector3.dot, Vector3.smul_x, Vector3.smul_y, Vector3.smul_z]; ring
    rw [← hu, f2, mul_zero] at this
    exact this
  simp only [Vector3.dot, Vector3.sub_x, Vector3.sub_y, Vector3.sub_z] at hxx hyy e2
  have key : X.inverse.apply p2 - X.inverse.apply p1 = ⟨(p2 - p1).norm, 0, 0⟩ := by
    rw [inverse_apply, inverse_apply]
    ext
    · simp only [Vector3.dot, Vector3.sub_x, Vector3.sub_y, Vector3.sub_z]
      linear_combination hxx
    · simp only [Vector3.dot, Vector3.sub_x, Vector3.sub_y, Vector3.sub_z]
      linear_combination hyy
    · simp only [Vector3.dot, Vector3.sub_x, Vector3.sub_y, Vector3.sub_z]
      linear_combination e2
  refine ⟨X, hX, key, ?_, ?_⟩
  · have := congrArg Vector3.y key
    simp only [Vector3.sub_y] at this
    linarith
  · have := congrArg Vector3.x key
    simp only [Vector3.sub_x] at this
    linarith

/-- Witness of claim C8: the unit right triangle `(0,0,0)`, `(1,0,0)`, `(0,1,0)` seen
from the point `(1/2, 1/2, 1)`, whose first edge has length `1`. -/
theorem local_x_axis_along_first_edge_witness :
    NonDegenerate ⟨0, 0, 0⟩ ⟨1, 0, 0⟩ ⟨0, 1, 0⟩ ∧
    ∃ X, CalcTransformationFromTriangleFrame ⟨0, 0, 0⟩ ⟨1, 0, 0⟩ ⟨0, 1, 0⟩
        ⟨1 / 2, 1 / 2, 1⟩ = some X ∧
      X.inverse.apply ⟨1, 0, 0⟩ - X.inverse.apply ⟨0, 0, 0⟩ = ⟨1, 0, 0⟩ := by
  refine ⟨NonDegenerate_unit_right_triangle, ?_⟩
  obtain ⟨X, hX, h1, -, -⟩ := local_x_axis_along_first_edge ⟨0, 0, 0⟩ ⟨1, 0, 0⟩
    ⟨0, 1, 0⟩ ⟨1 / 2, 1 / 2, 1⟩ NonDegenerate_unit_right_triangle
  rw [unit_right_triangle_edge] at h1
  exact ⟨X, hX, h1⟩

/-- Claim C9.  For angles with `cos θ0 ≠ 0` and `cos θf ≠ 0`, the general formula of
`CalcIntegralI0minus1P1` tends to `CalcIntegralJ0minus1 θ0 θf` as `alpha` tends to `0`
through non-zero values. -/
theorem I0minus1P1_general_tendsto_J0minus1 (θ0 θf : ℝ) (h0 : Real.cos θ0 ≠ 0)
    (hf : Real.cos θf ≠ 0) :
    Tendsto (fun α => CalcIntegralI0minus1P1General θ0 θf α) (𝓝[≠] 0)
      (𝓝 (CalcIntegralJ0minus1 θ0 θf)) := by
  have h := (general_term_tendsto θf hf).sub (general_term_tendsto θ0 h0)
  refine h.congr' (Eventually.of_forall fun α => ?_)
  simp only [CalcIntegralI0minus1P1General]
  ring

/-- Witness of claim C9: the angles `0` and `π / 3`. -/
theorem I0minus1P1_general_tendsto_J0minus1_witness :
    Real.cos 0 ≠ 0 ∧ Real.cos (Real.pi / 3) ≠ 0 ∧
    Tendsto (fun α => CalcIntegralI0minus1P1General 0 (Real.pi / 3) α) (𝓝[≠] 0)
      (𝓝 (CalcIntegralJ0minus1 0 (Real.pi / 3))) :=
  ⟨by simp, by rw [Real.cos_pi_div_three]; norm_num,
    I0minus1P1_general_tendsto_J0minus1 0 (Real.pi / 3) (by simp)
      (by rw [Real.cos_pi_div_three]; norm_num)⟩

/-- Claim C10.  For angles with `cos θ0 ≠ 0` and `cos θf ≠ 0`, the general formula of
`CalcIntegralI1minus2P1` tends to `CalcIntegralJ1minus2 θ0 θf`, which is
`sec θf - sec θ0`, as `alpha` tends to `0` through non-zero values. -/
theorem I1minus2P1_general_tendsto_J1minus2 (θ0 θf : ℝ) (_h0 : Real.cos θ0 ≠ 0)
    (_hf : Real.cos θf ≠ 0) :
    Tendsto (fun α => CalcIntegralI1minus2P1General θ0 θf α) (𝓝[≠] 0)
        (𝓝 (CalcIntegralJ1minus2 θ0 θf)) ∧
      CalcIntegralJ1minus2 θ0 θf = (Real.cos θf)⁻¹ - (Real.cos θ0)⁻¹ := by
  have h := (I1minus2P1General_continuousAt θ0 θf).tendsto
  rw [I1minus2P1General_zero] at h
  refine ⟨h.mono_left nhdsWithin_le_nhds, ?_⟩
  simp [CalcIntegralJ1minus2]

/-- Witness of claim C10: the angles `0` and `π / 3`, where the limit is `2 - 1`. -/
theorem I1minus2P1_general_tendsto_J1minus2_witness :
    Real.cos 0 ≠ 0 ∧ Real.cos (Real.pi / 3) ≠ 0 ∧
    Tendsto (fun α => CalcIntegralI1minus2P1General 0 (Real.pi / 3) α) (𝓝[≠] 0) (𝓝 1) := by
  have h0 : Real.cos 0 ≠ 0 := by simp
  have hf : Real.cos (Real.pi / 3) ≠ 0 := by rw [Real.cos_pi_div_three]; norm_num
  refine ⟨h0, hf, ?_⟩
  obtain ⟨h, hJ⟩ := I1minus2P1_general_tendsto_J1minus2 0 (Real.pi / 3) h0 hf
  rw [hJ, Real.cos_pi_div_three, Real.cos_zero] at h
  norm_num at h
  exact h

/-- Claim C11.  When `|alpha|` is below `10` times machine epsilon, `alpha = 0` included,
`CalcIntegralI0minus1P1` returns `CalcIntegralJ0minus1 θ0 θf`, which is
`log |sec θf + tan θf| - log |sec θ0 + tan θ0|`, and `CalcIntegralI1minus2P1` returns
`CalcIntegralJ1minus2 θ0 θf`, which is `sec θf - sec θ0`; the expressions evaluated on
that path are the test and the `J` formula, and none of them divides by anything that
involves `alpha`.  When `|alpha|` is at or above the threshold both functions return
their general formula, written out here, which does divide by `pow(alpha, 2)` or
`pow(alpha, 2) - 1`.  The expression trees have the values of the two functions. -/
theorem small_alpha_dispatch (θ0 θf α : ℝ) :
    (CalcIntegralI0minus1P1Code.run θ0 θf α = CalcIntegralI0minus1P1 θ0 θf α ∧
      CalcIntegralI1minus2P1Code.run θ0 θf α = CalcIntegralI1minus2P1 θ0 θf α) ∧
    (|α| < 10 * epsilon →
      CalcIntegralI0minus1P1 θ0 θf α = CalcIntegralJ0minus1 θ0 θf ∧
      CalcIntegralI0minus1P1 θ0 θf α =
        Real.log |1 / Real.cos θf + Real.tan θf| - Real.log |1 / Real.cos θ0 + Real.tan θ0| ∧
      CalcIntegralI1minus2P1 θ0 θf α = CalcIntegralJ1minus2 θ0 θf ∧
      CalcIntegralI1minus2P1 θ0 θf α = 1 / Real.cos θf - 1 / Real.cos θ0 ∧
      CalcIntegralI0minus1P1Code.path θ0 θf α =
        [Expr.fabs (Expr.sub (Expr.var Var.alpha) (Expr.lit 0)),
          Expr.mul (Expr.lit 10) Expr.eps, CalcIntegralJ0minus1Expr] ∧
      CalcIntegralI1minus2P1Code.path θ0 θf α =
        [Expr.fabs (Expr.sub (Expr.var Var.alpha) (Expr.lit 0)),
          Expr.mul (Expr.lit 10) Expr.eps, CalcIntegralJ1minus2Expr] ∧
      (∀ e ∈ CalcIntegralI0minus1P1Code.path θ0 θf α, e.dividesBy Var.alpha = false) ∧
      (∀ e ∈ CalcIntegralI1minus2P1Code.path θ0 θf α, e.dividesBy Var.alpha = false)) ∧
    (10 * epsilon ≤ |α| →
      CalcIntegralI0minus1P1 θ0 θf α =
        α * Real.arcsin (α * Real.sin θf) +
          Real.sqrt (1 - α ^ 2) *
            atanh ((Real.sqrt (2 * (1 / α ^ 2 - 1)) * Real.sin θf)
              / Real.sqrt (Real.cos (2 * θf) + 2 * (1 / α ^ 2 - 1) + 1)) -
          α * Real.arcsin (α * Real.sin θ0) -
          Real.sqrt (1 - α ^ 2) *
            atanh ((Real.sqrt (2 * (1 / α ^ 2 - 1)) * Real.sin θ0)
              / Real.sqrt (Real.cos (2 * θ0) + 2 * (1 / α ^ 2 - 1) + 1)) ∧
      CalcIntegralI1minus2P1 θ0 θf α =
        α * Real.arsinh ((α * Real.sqrt (1 - α ^ 2) * Real.cos θf) / (α ^ 2 - 1)) +
          Real.sqrt (α ^ 2 * Real.cos θf ^ 2 - α ^ 2 + 1) / Real.cos θf -
          α * Real.arsinh ((α * Real.sqrt (1 - α ^ 2) * Real.cos θ0) / (α ^ 2 - 1)) -
          Real.sqrt (α ^ 2 * Real.cos θ0 ^ 2 - α ^ 2 + 1) / Real.cos θ0 ∧
      CalcIntegralI0minus1P1Code.path θ0 θf α =
        [Expr.fabs (Expr.sub (Expr.var Var.alpha) (Expr.lit 0)),
          Expr.mul (Expr.lit 10) Expr.eps, CalcIntegralI0minus1P1GeneralExpr] ∧
      CalcIntegralI1minus2P1Code.path θ0 θf α =
        [Expr.fabs (Expr.sub (Expr.var Var.alpha) (Expr.lit 0)),
          Expr.mul (Expr.lit 10) Expr.eps, CalcIntegralI1minus2P1GeneralExpr] ∧
      CalcIntegralI0minus1P1GeneralExpr.dividesBy Var.alpha = true ∧
      CalcIntegralI1minus2P1GeneralExpr.dividesBy Var.alpha = true) := by
  refine ⟨⟨CalcIntegralI0minus1P1Code_run θ0 θf α, CalcIntegralI1minus2P1Code_run θ0 θf α⟩,
    ?_, ?_⟩
  · intro h
    have h' : |α - 0| < 10 * epsilon := by rwa [sub_zero]
    have p0 := I0minus1P1_path_small θ0 θf α h
    have p1 := I1minus2P1_path_small θ0 θf α h
    refine ⟨?_, ?_, ?_, ?_, p0, p1, ?_, ?_⟩
    · simp only [CalcIntegralI0minus1P1, if_pos h']
    · simp only [CalcIntegralI0minus1P1, if_pos h', CalcIntegralJ0minus1]
    · simp only [CalcIntegralI1minus2P1, if_pos h']
    · simp only [CalcIntegralI1minus2P1, if_pos h', CalcIntegralJ1minus2]
    · rw [p0]; exact small_path_no_division_by_alpha.1
    · rw [p1]; exact small_path_no_division_by_alpha.2
  · intro h
    have h' : ¬ |α - 0| < 10 * epsilon := by rw [sub_zero]; exact not_lt.mpr h
    refine ⟨?_, ?_, I0minus1P1_path_large θ0 θf α h, I1minus2P1_path_large θ0 θf α h,
      general_exprs_divide_by_alpha.1, general_exprs_divide_by_alpha.2⟩
    · simp only [CalcIntegralI0minus1P1, if_neg h', CalcIntegralI0minus1P1General]
    · simp only [CalcIntegralI1minus2P1, if_neg h', CalcIntegralI1minus2P1General]

/-- Witness of claim C11: `alpha = 0` takes the special case, without a division by
`alpha`, and `alpha = 1/2` the general formula. -/
theorem small_alpha_dispatch_witness :
    CalcIntegralI0minus1P1 0 (Real.pi / 3) 0 = CalcIntegralJ0minus1 0 (Real.pi / 3) ∧
    CalcIntegralI1minus2P1 0 (Real.pi / 3) 0 = 1 ∧
    (∀ e ∈ CalcIntegralI0minus1P1Code.path 0 (Real.pi / 3) 0, e.dividesBy Var.alpha = false) ∧
    CalcIntegralI0minus1P1Code.path 0 (Real.pi / 3) (1 / 2) =
      [Expr.fabs (Expr.sub (Expr.var Var.alpha) (Expr.lit 0)),
        Expr.mul (Expr.lit 10) Expr.eps, CalcIntegralI0minus1P1GeneralExpr] := by
  have h0 := (small_alpha_dispatch 0 (Real.pi / 3) 0).2.1
    (by rw [abs_zero]; exact ten_epsilon_pos)
  have h1 := (small_alpha_dispatch 0 (Real.pi / 3) (1 / 2)).2.2
    (by have := half_not_small; rw [sub_zero] at this; exact not_lt.mp this)
  refine ⟨h0.1, ?_, h0.2.2.2.2.2.2.1, h1.2.2.1⟩
  rw [h0.2.2.2.1, Real.cos_pi_div_three, Real.cos_zero]
  norm_num

/-- Claim C13, as amended.  When `v1` and `v2` carry the opposite sign from `v3`,
`CalcInterpolatedVolumeExcludingTwoNode` is the tetrahedron volume
`CalcVolumeOfTetrahedral p3 c13 c23 v3` with the signed height `v3`, for the cut points
`c13 = p1 + |v1| / (|v1| + |v3|) (p3 - p1)` and `c23 = p2 + |v2| / (|v2| + |v3|) (p3 - p2)`:
for `v3 > 0` it is the volume with height `|v3|` and is not negative, for `v3 < 0` it is
minus that volume and is not positive. -/
theorem two_node_volume_has_sign_of_v3 (p1 : Vector3) (v1 : ℝ) (p2 : Vector3) (v2 : ℝ)
    (p3 : Vector3) (v3 : ℝ)
    (_hsign : (0 < v1 ∧ 0 < v2 ∧ v3 < 0) ∨ (v1 < 0 ∧ v2 < 0 ∧ 0 < v3)) :
    CalcInterpolatedVolumeExcludingTwoNode p1 v1 p2 v2 p3 v3 =
      CalcVolumeOfTetrahedral p3 (p1 + (|v1| / (|v1| + |v3|)) * (p3 - p1))
        (p2 + (|v2| / (|v2| + |v3|)) * (p3 - p2)) v3 ∧
    (0 < v3 →
      CalcInterpolatedVolumeExcludingTwoNode p1 v1 p2 v2 p3 v3 =
        CalcVolumeOfTetrahedral p3 (p1 + (|v1| / (|v1| + |v3|)) * (p3 - p1))
          (p2 + (|v2| / (|v2| + |v3|)) * (p3 - p2)) |v3| ∧
      0 ≤ CalcInterpolatedVolumeExcludingTwoNode p1 v1 p2 v2 p3 v3) ∧
    (v3 < 0 →
      CalcInterpolatedVolumeExcludingTwoNode p1 v1 p2 v2 p3 v3 =
        -CalcVolumeOfTetrahedral p3 (p1 + (|v1| / (|v1| + |v3|)) * (p3 - p1))
          (p2 + (|v2| / (|v2| + |v3|)) * (p3 - p2)) |v3| ∧
      CalcInterpolatedVolumeExcludingTwoNode p1 v1 p2 v2 p3 v3 ≤ 0) := by
  have hdef : CalcInterpolatedVolumeExcludingTwoNode p1 v1 p2 v2 p3 v3 =
      CalcVolumeOfTetrahedral p3 (p1 + (|v1| / (|v1| + |v3|)) * (p3 - p1))
        (p2 + (|v2| / (|v2| + |v3|)) * (p3 - p2)) v3 := rfl
  refine ⟨hdef, ?_, ?_⟩
  · intro h3
    have key : ∀ c13 c23 : Vector3, CalcVolumeOfTetrahedral p3 c13 c23 |v3| =
        CalcVolumeOfTetrahedral p3 c13 c23 v3 := by
      intro c13 c23
      rw [abs_of_pos h3]
    rw [key, hdef]
    exact ⟨rfl, CalcVolumeOfTetrahedral_nonneg _ _ _ _ h3.le⟩
  · intro h3
    have key : ∀ c13 c23 : Vector3, CalcVolumeOfTetrahedral p3 c13 c23 |v3| =
        -CalcVolumeOfTetrahedral p3 c13 c23 v3 := by
      intro c13 c23
      rw [abs_of_neg h3, CalcVolumeOfTetrahedral_neg]
    have hn := CalcVolumeOfTetrahedral_nonneg p3 (p1 + (|v1| / (|v1| + |v3|)) * (p3 - p1))
      (p2 + (|v2| / (|v2| + |v3|)) * (p3 - p2)) (-v3) (by linarith)
    rw [CalcVolumeOfTetrahedral_neg] at hn
    rw [key, hdef, neg_neg]
    refine ⟨rfl, ?_⟩
    linarith

/-- Witness of claim C13 as amended: the unit right triangle with the values
`-1`, `-1`, `1`. -/
theorem two_node_volume_has_sign_of_v3_witness :
    ((-1 : ℝ) < 0 ∧ (-1 : ℝ) < 0 ∧ (0 : ℝ) < 1) ∧
    0 ≤ CalcInterpolatedVolumeExcludingTwoNode ⟨0, 0, 0⟩ (-1) ⟨1, 0, 0⟩ (-1) ⟨0, 1, 0⟩ 1 :=
  ⟨⟨by norm_num, by norm_num, one_pos⟩,
    ((two_node_volume_has_sign_of_v3 ⟨0, 0, 0⟩ (-1) ⟨1, 0, 0⟩ (-1) ⟨0, 1, 0⟩ 1
      (Or.inr ⟨by norm_num, by norm_num, one_pos⟩)).2.1 one_pos).2⟩

/-- Counterexample to claim C13 as stated: on the unit right triangle with the values
`1`, `1`, `-1` the function returns `-1/24`, while the tetrahedron with height `|v3|`
has volume `1/24`; the returned volume is negative. -/
theorem two_node_volume_negative :
    CalcInterpolatedVolumeExcludingTwoNode ⟨0, 0, 0⟩ 1 ⟨1, 0, 0⟩ 1 ⟨0, 1, 0⟩ (-1) = -(1 / 24) ∧
    CalcVolumeOfTetrahedral ⟨0, 1, 0⟩
      ((⟨0, 0, 0⟩ : Vector3) + (|(1 : ℝ)| / (|(1 : ℝ)| + |(-1 : ℝ)|)) *
        ((⟨0, 1, 0⟩ : Vector3) - ⟨0, 0, 0⟩))
      ((⟨1, 0, 0⟩ : Vector3) + (|(1 : ℝ)| / (|(1 : ℝ)| + |(-1 : ℝ)|)) *
        ((⟨0, 1, 0⟩ : Vector3) - ⟨1, 0, 0⟩)) |(-1 : ℝ)| = 1 / 24 ∧
    ¬ (0 ≤ CalcInterpolatedVolumeExcludingTwoNode ⟨0, 0, 0⟩ 1 ⟨1, 0, 0⟩ 1 ⟨0, 1, 0⟩ (-1)) := by
  have hv := unit_two_node_value
  refine ⟨hv, ?_, ?_⟩
  · have hdef : CalcInterpolatedVolumeExcludingTwoNode ⟨0, 0, 0⟩ 1 ⟨1, 0, 0⟩ 1 ⟨0, 1, 0⟩ (-1) =
        CalcVolumeOfTetrahedral ⟨0, 1, 0⟩
          ((⟨0, 0, 0⟩ : Vector3) + (|(1 : ℝ)| / (|(1 : ℝ)| + |(-1 : ℝ)|)) *
            ((⟨0, 1, 0⟩ : Vector3) - ⟨0, 0, 0⟩))
          ((⟨1, 0, 0⟩ : Vector3) + (|(1 : ℝ)| / (|(1 : ℝ)| + |(-1 : ℝ)|)) *
            ((⟨0, 1, 0⟩ : Vector3) - ⟨1, 0, 0⟩)) (-1) := rfl
    have key : ∀ c13 c23 : Vector3, CalcVolumeOfTetrahedral ⟨0, 1, 0⟩ c13 c23 |(-1 : ℝ)| =
        -CalcVolumeOfTetrahedral ⟨0, 1, 0⟩ c13 c23 (-1) := by
      intro c13 c23
      rw [abs_neg, abs_one, CalcVolumeOfTetrahedral_neg, neg_neg]
    rw [key, ← hdef, hv, neg_neg]
  · rw [hv]
    norm_num

/-- Claim C14.  The 2D `CalcTriangleArea` is half the cross product of the edges
`p2 - p1` and `p3 - p1`, and it changes sign when the last two vertices are swapped. -/
theorem area2d_antisymmetric (p1 p2 p3 : Vector2) :
    CalcTriangleArea2d p1 p2 p3 =
      ((p2.x - p1.x) * (p3.y - p1.y) - (p2.y - p1.y) * (p3.x - p1.x)) / 2 ∧
    CalcTriangleArea2d p1 p2 p3 = -CalcTriangleArea2d p1 p3 p2 := by
  constructor
  · simp only [CalcTriangleArea2d, Vector2.sub_x2, Vector2.sub_y2]
  · simp only [CalcTriangleArea2d, Vector2.sub_x2, Vector2.sub_y2]
    ring

/-- Claim C15.  The 3D `CalcTriangleArea` vector is unchanged by the two cyclic
permutations of the vertices and negated by each of the three transpositions; its
length is the same in all cases. -/
theorem area3d_permutations (p1 p2 p3 : Vector3) :
    (CalcTriangleArea3d p2 p3 p1 = CalcTriangleArea3d p1 p2 p3 ∧
      CalcTriangleArea3d p3 p1 p2 = CalcTriangleArea3d p1 p2 p3) ∧
    (CalcTriangleArea3d p2 p1 p3 = -CalcTriangleArea3d p1 p2 p3 ∧
      CalcTriangleArea3d p1 p3 p2 = -CalcTriangleArea3d p1 p2 p3 ∧
      CalcTriangleArea3d p3 p2 p1 = -CalcTriangleArea3d p1 p2 p3) ∧
    ((CalcTriangleArea3d p2 p3 p1).norm = (CalcTriangleArea3d p1 p2 p3).norm ∧
      (CalcTriangleArea3d p3 p1 p2).norm = (CalcTriangleArea3d p1 p2 p3).norm ∧
      (CalcTriangleArea3d p2 p1 p3).norm = (CalcTriangleArea3d p1 p2 p3).norm ∧
      (CalcTriangleArea3d p1 p3 p2).norm = (CalcTriangleArea3d p1 p2 p3).norm ∧
      (CalcTriangleArea3d p3 p2 p1).norm = (CalcTriangleArea3d p1 p2 p3).norm) := by
  have c1 : CalcTriangleArea3d p2 p3 p1 = CalcTriangleArea3d p1 p2 p3 := by
    ext <;> simp [CalcTriangleArea3d] <;> ring
  have c2 : CalcTriangleArea3d p3 p1 p2 = CalcTriangleArea3d p1 p2 p3 := by
    ext <;> simp [CalcTriangleArea3d] <;> ring
  have t1 : CalcTriangleArea3d p2 p1 p3 = -CalcTriangleArea3d p1 p2 p3 := by
    ext <;> simp [CalcTriangleArea3d] <;> ring
  have t2 : CalcTriangleArea3d p1 p3 p2 = -CalcTriangleArea3d p1 p2 p3 := by
    ext <;> simp [CalcTriangleArea3d] <;> ring
  have t3 : CalcTriangleArea3d p3 p2 p1 = -CalcTriangleArea3d p1 p2 p3 := by
    ext <;> simp [CalcTriangleArea3d] <;> ring
  refine ⟨⟨c1, c2⟩, ⟨t1, t2, t3⟩, ?_, ?_, ?_, ?_, ?_⟩
  · rw [c1]
  · rw [c2]
  · rw [t1, norm_neg_eq]
  · rw [t2, norm_neg_eq]
  · rw [t3, norm_neg_eq]

/-- Claim C16, as amended.  For a collinear triple `(q1, q2, q3)` whose edges from `q1`
are short, `|q2 - q1|₁ + |q3 - q1|₁ + 40 ε ≤ 1` with `|·|₁` the sum of the absolute
coordinates, and points `p1`, `p2`, `p3` each at distance less than `10 ε` from `q1`,
`q2`, `q3`, `CalcTriangleOrientation p1 p2 p3` returns `0`. -/
theorem orientation_zero_near_small_collinear (q1 q2 q3 p1 p2 p3 : Vector2)
    (hcol : CalcTriangleArea2d q1 q2 q3 = 0)
    (hsize : |q2.x - q1.x| + |q2.y - q1.y| + |q3.x - q1.x| + |q3.y - q1.y| + 40 * epsilon ≤ 1)
    (h1 : (p1 - q1).norm < 10 * epsilon) (h2 : (p2 - q2).norm < 10 * epsilon)
    (h3 : (p3 - q3).norm < 10 * epsilon) :
    CalcTriangleOrientation p1 p2 p3 = 0 := by
  have htol := ten_epsilon_pos
  have b1x := le_trans (Vector2.abs_x_le_norm (p1 - q1)) h1.le
  have b1y := le_trans (Vector2.abs_y_le_norm (p1 - q1)) h1.le
  have b2x := le_trans (Vector2.abs_x_le_norm (p2 - q2)) h2.le
  have b2y := le_trans (Vector2.abs_y_le_norm (p2 - q2)) h2.le
  have b3x := le_trans (Vector2.abs_x_le_norm (p3 - q3)) h3.le
  have b3y := le_trans (Vector2.abs_y_le_norm (p3 - q3)) h3.le
  simp only [Vector2.sub_x2, Vector2.sub_y2] at b1x b1y b2x b2y b3x b3y
  have hb := area_near_collinear q1 q2 q3 p1 p2 p3 (10 * epsilon) hcol b1x b1y b2x b2y b3x b3y
  have hle : |CalcTriangleArea2d p1 p2 p3| ≤ 10 * epsilon := by
    have hmul := mul_le_mul_of_nonneg_left hsize htol.le
    nlinarith [hb, hmul]
  obtain ⟨hlo, hhi⟩ := abs_le.mp hle
  rw [CalcTriangleOrientation_eq, if_neg (not_lt.mpr hlo), if_neg (not_lt.mpr hhi)]

/-- Witness of claim C16 as amended: the collinear points `(0,0)`, `(1/4,0)`, `(1/2,0)`,
the last one moved up by `9 ε`. -/
theorem orientation_zero_near_small_collinear_witness :
    CalcTriangleArea2d ⟨0, 0⟩ ⟨1 / 4, 0⟩ ⟨1 / 2, 0⟩ = 0 ∧
    ((⟨0, 0⟩ : Vector2) - ⟨0, 0⟩).norm < 10 * epsilon ∧
    ((⟨1 / 4, 0⟩ : Vector2) - ⟨1 / 4, 0⟩).norm < 10 * epsilon ∧
    ((⟨1 / 2, 9 * epsilon⟩ : Vector2) - ⟨1 / 2, 0⟩).norm < 10 * epsilon ∧
    CalcTriangleOrientation ⟨0, 0⟩ ⟨1 / 4, 0⟩ ⟨1 / 2, 9 * epsilon⟩ = 0 := by
  have he := epsilon_pos
  have hcol : CalcTriangleArea2d ⟨0, 0⟩ ⟨1 / 4, 0⟩ ⟨1 / 2, 0⟩ = 0 := by
    simp [CalcTriangleArea2d]
  have h1 : ((⟨0, 0⟩ : Vector2) - ⟨0, 0⟩).norm < 10 * epsilon := by
    rw [Vector2_sub_self_norm]; exact ten_epsilon_pos
  have h2 : ((⟨1 / 4, 0⟩ : Vector2) - ⟨1 / 4, 0⟩).norm < 10 * epsilon := by
    rw [Vector2_sub_self_norm]; exact ten_epsilon_pos
  have h3 : ((⟨1 / 2, 9 * epsilon⟩ : Vector2) - ⟨1 / 2, 0⟩).norm < 10 * epsilon := by
    have e : (⟨1 / 2, 9 * epsilon⟩ : Vector2) - ⟨1 / 2, 0⟩ = ⟨0, 9 * epsilon⟩ := by
      ext <;> simp
    rw [e, Vector2_norm_zero_y _ (by linarith)]
    linarith
  refine ⟨hcol, h1, h2, h3, orientation_zero_near_small_collinear _ _ _ _ _ _ hcol ?_ h1 h2 h3⟩
  simp only [sub_zero, sub_self, abs_zero, add_zero]
  rw [abs_of_pos (by norm_num : (0 : ℝ) < 1 / 4), abs_of_pos (by norm_num : (0 : ℝ) < 1 / 2)]
  unfold epsilon
  norm_num

/-- Counterexample to claim C16 as stated: the collinear points `(0,0)`, `(4,0)`,
`(8,0)`, the last one moved up by `9 ε`, less than the tolerance: the signed area is
`18 ε` and `CalcTriangleOrientation` returns `1`. -/
theorem orientation_nonzero_near_large_collinear :
    CalcTriangleArea2d ⟨0, 0⟩ ⟨4, 0⟩ ⟨8, 0⟩ = 0 ∧
    ((⟨0, 0⟩ : Vector2) - ⟨0, 0⟩).norm < 10 * epsilon ∧
    ((⟨4, 0⟩ : Vector2) - ⟨4, 0⟩).norm < 10 * epsilon ∧
    ((⟨8, 9 * epsilon⟩ : Vector2) - ⟨8, 0⟩).norm < 10 * epsilon ∧
    CalcTriangleOrientation ⟨0, 0⟩ ⟨4, 0⟩ ⟨8, 9 * epsilon⟩ = 1 := by
  have he := epsilon_pos
  have h3 : ((⟨8, 9 * epsilon⟩ : Vector2) - ⟨8, 0⟩).norm < 10 * epsilon := by
    have e : (⟨8, 9 * epsilon⟩ : Vector2) - ⟨8, 0⟩ = ⟨0, 9 * epsilon⟩ := by
      ext <;> simp
    rw [e, Vector2_norm_zero_y _ (by linarith)]
    linarith
  refine ⟨by simp [CalcTriangleArea2d], ?_, ?_, h3, ?_⟩
  · rw [Vector2_sub_self_norm]; exact ten_epsilon_pos
  · rw [Vector2_sub_self_norm]; exact ten_epsilon_pos
  · have harea : CalcTriangleArea2d ⟨0, 0⟩ ⟨4, 0⟩ ⟨8, 9 * epsilon⟩ = 18 * epsilon := by
      simp only [CalcTriangleArea2d, Vector2.sub_x2, Vector2.sub_y2]
      ring
    rw [CalcTriangleOrientation_eq, harea, if_neg (by linarith), if_pos (by linarith)]

/-- Claim C17.  `CalcTriangleOrientation` returns `1` exactly when the signed area is
above `10` times machine epsilon, `-1` exactly when it is below minus that tolerance,
`0` exactly when it lies in the closed band between the two, and no other value; on the
unit right triangle `(0,0)`, `(1,0)`, `(0,1)` it returns `1`. -/
theorem orientation_classification (p1 p2 p3 : Vector2) :
    (CalcTriangleOrientation p1 p2 p3 = 1 ↔ CalcTriangleArea2d p1 p2 p3 > 10 * epsilon) ∧
    (CalcTriangleOrientation p1 p2 p3 = -1 ↔ CalcTriangleArea2d p1 p2 p3 < -(10 * epsilon)) ∧
    (CalcTriangleOrientation p1 p2 p3 = 0 ↔
      -(10 * epsilon) ≤ CalcTriangleArea2d p1 p2 p3 ∧
        CalcTriangleArea2d p1 p2 p3 ≤ 10 * epsilon) ∧
    (CalcTriangleOrientation p1 p2 p3 = 1 ∨ CalcTriangleOrientation p1 p2 p3 = -1 ∨
      CalcTriangleOrientation p1 p2 p3 = 0) ∧
    CalcTriangleOrientation ⟨0, 0⟩ ⟨1, 0⟩ ⟨0, 1⟩ = 1 := by
  have htol := ten_epsilon_pos
  refine ⟨?_, ?_, ?_, ?_, ?_⟩
  · rw [CalcTriangleOrientation_eq]
    split_ifs with ha hb
    · constructor
      · intro h; cases h
      · intro h; linarith
    · simp [hb]
    · simp [hb]
  · rw [CalcTriangleOrientation_eq]
    split_ifs with ha hb
    · simp [ha]
    · simp [ha]
    · simp [ha]
  · rw [CalcTriangleOrientation_eq]
    split_ifs with ha hb
    · constructor
      · intro h; cases h
      · intro h; linarith [h.1]
    · constructor
      · intro h; cases h
      · intro h; linarith [h.2]
    · simp only [true_iff]
      exact ⟨not_lt.mp ha, not_lt.mp hb⟩
  · rw [CalcTriangleOrientation_eq]
    split_ifs <;> simp
  · rw [CalcTriangleOrientation_eq]
    have harea : CalcTriangleArea2d ⟨0, 0⟩ ⟨1, 0⟩ ⟨0, 1⟩ = 1 / 2 := by
      simp [CalcTriangleArea2d]
    rw [harea]
    have h1 : ¬ ((1 : ℝ) / 2 < -(10 * epsilon)) := by linarith
    have h2 : (1 : ℝ) / 2 > 10 * epsilon := by unfold epsilon; norm_num
    rw [if_neg h1, if_pos h2]

/-- Claim C18.  For a triangle with `p1 ≠ p2` and values `v1 > 0`, `v2 > 0`, `v3 < 0`, the
sum of `CalcInterpolatedVolumeExcludingOneNode` and
`CalcInterpolatedVolumeExcludingTwoNode` is the area of the triangle times
`(v1 + v2 + v3) / 3`. -/
theorem clipped_volumes_sum_closed_form (p1 : Vector3) (v1 : ℝ) (p2 : Vector3) (v2 : ℝ)
    (p3 : Vector3) (v3 : ℝ) (h1 : 0 < v1) (h2 : 0 < v2) (h3 : v3 < 0) (h12 : p1 ≠ p2) :
    CalcInterpolatedVolumeExcludingOneNode p1 v1 p2 v2 p3 v3 +
        CalcInterpolatedVolumeExcludingTwoNode p1 v1 p2 v2 p3 v3 =
      (CalcTriangleArea3d p1 p2 p3).norm * (v1 + v2 + v3) / 3 := by
  obtain ⟨hone, htwo⟩ := clipped_volumes_closed_form p1 v1 p2 v2 p3 v3 h1 h2 h3 h12
  have hc1 : v1 - v3 ≠ 0 := by linarith
  have hc2 : v2 - v3 ≠ 0 := by linarith
  rw [hone, htwo, CalcTriangleArea3d_norm]
  field_simp
  ring

/-- Witness of claim C18: the unit right triangle, of area `1/2`, with the values
`1`, `1`, `-1`: the sum is `1/6`. -/
theorem clipped_volumes_sum_closed_form_witness :
    (0 : ℝ) < 1 ∧ (-1 : ℝ) < 0 ∧ (⟨0, 0, 0⟩ : Vector3) ≠ ⟨1, 0, 0⟩ ∧
    CalcInterpolatedVolumeExcludingOneNode ⟨0, 0, 0⟩ 1 ⟨1, 0, 0⟩ 1 ⟨0, 1, 0⟩ (-1) +
        CalcInterpolatedVolumeExcludingTwoNode ⟨0, 0, 0⟩ 1 ⟨1, 0, 0⟩ 1 ⟨0, 1, 0⟩ (-1) =
      1 / 6 := by
  refine ⟨one_pos, by norm_num, unit_right_triangle_ne, ?_⟩
  have h := clipped_volumes_sum_closed_form ⟨0, 0, 0⟩ 1 ⟨1, 0, 0⟩ 1 ⟨0, 1, 0⟩ (-1)
    one_pos one_pos (by norm_num) unit_right_triangle_ne
  rw [CalcTriangleArea3d_norm, unit_right_triangle_cross_norm] at h
  rw [h]
  norm_num

/-- Claim C19.  For a non-degenerate triangle, the 2D triangle of the local `x`, `y`
coordinates of `p1`, `p2`, `p3` has a signed area equal to the length of the 3D area
vector `CalcTriangleArea p1 p2 p3`, hence positive: the evaluator receives a
counter-clockwise triangle of the same area. -/
theorem local_triangle_area (p1 p2 p3 xA : Vector3) (h : NonDegenerate p1 p2 p3) :
    ∃ X, CalcTransformationFromTriangleFrame p1 p2 p3 xA = some X ∧
      CalcTriangleArea2d (X.inverse.apply p1).head2 (X.inverse.apply p2).head2
        (X.inverse.apply p3).head2 = (CalcTriangleArea3d p1 p2 p3).norm ∧
      0 < CalcTriangleArea2d (X.inverse.apply p1).head2 (X.inverse.apply p2).head2
        (X.inverse.apply p3).head2 := by
  obtain ⟨hN, -, X, hX, -, h2, h1, -, hx, hz, hxz⟩ := frame_facts p1 p2 p3 xA h
  obtain ⟨-, -, -, f4, -⟩ := unit_frame_facts _ _ hx hz hxz
  rw [← h1] at f4
  have hzn : X.linear.col2.dot ((p2 - p1).cross (p3 - p1)) =
      ((p2 - p1).cross (p3 - p1)).norm := by
    have e : X.linear.col2.dot ((p2 - p1).cross (p3 - p1)) =
        ((p2 - p1).cross (p3 - p1)).squaredNorm / ((p2 - p1).cross (p3 - p1)).norm := by
      rw [h2]
      simp only [Vector3.dot, Vector3.squaredNorm, Vector3.sdiv_x, Vector3.sdiv_y,
        Vector3.sdiv_z]
      field_simp
    rw [e, ← Vector3.norm_mul_self]
    field_simp
  have hbc := cross_dot_cross X.linear.col0 X.linear.col1 (p2 - p1) (p3 - p1)
  rw [f4, hzn] at hbc
  have harea : CalcTriangleArea2d (X.inverse.apply p1).head2 (X.inverse.apply p2).head2
      (X.inverse.apply p3).head2 = (CalcTriangleArea3d p1 p2 p3).norm := by
    rw [CalcTriangleArea3d_norm, hbc, inverse_apply, inverse_apply, inverse_apply]
    simp only [CalcTriangleArea2d, Vector3.head2, Vector2.sub_x2, Vector2.sub_y2,
      Vector3.dot, Vector3.sub_x, Vector3.sub_y, Vector3.sub_z]
    ring
  refine ⟨X, hX, harea, ?_⟩
  rw [harea, CalcTriangleArea3d_norm]
  linarith

/-- Witness of claim C19: the unit right triangle seen from `(1/2, 1/2, 1)`; its local
triangle has signed area `1/2`. -/
theorem local_triangle_area_witness :
    NonDegenerate ⟨0, 0, 0⟩ ⟨1, 0, 0⟩ ⟨0, 1, 0⟩ ∧
    ∃ X, CalcTransformationFromTriangleFrame ⟨0, 0, 0⟩ ⟨1, 0, 0⟩ ⟨0, 1, 0⟩
        ⟨1 / 2, 1 / 2, 1⟩ = some X ∧
      CalcTriangleArea2d (X.inverse.apply ⟨0, 0, 0⟩).head2 (X.inverse.apply ⟨1, 0, 0⟩).head2
        (X.inverse.apply ⟨0, 1, 0⟩).head2 = 1 / 2 := by
  refine ⟨NonDegenerate_unit_right_triangle, ?_⟩
  obtain ⟨X, hX, h1, -⟩ := local_triangle_area ⟨0, 0, 0⟩ ⟨1, 0, 0⟩ ⟨0, 1, 0⟩
    ⟨1 / 2, 1 / 2, 1⟩ NonDegenerate_unit_right_triangle
  rw [CalcTriangleArea3d_norm, unit_right_triangle_cross_norm] at h1
  exact ⟨X, hX, h1⟩

/-- Claim C20.  For angles with `-π/2 < θ0 ≤ θf < π/2`, `CalcIntegralJ0minus1 θ0 θf` is
the integral of `1 / cos θ`, the secant, over `[θ0, θf]`. -/
theorem J0minus1_is_integral_of_sec (θ0 θf : ℝ) (h0 : -(Real.pi / 2) < θ0) (h01 : θ0 ≤ θf)
    (hf : θf < Real.pi / 2) :
    CalcIntegralJ0minus1 θ0 θf = ∫ θ in θ0..θf, 1 / Real.cos θ := by
  have hcos : ∀ θ ∈ Set.uIcc θ0 θf, 0 < Real.cos θ := by
    intro θ hθ
    rw [Set.uIcc_of_le h01] at hθ
    exact Real.cos_pos_of_mem_Ioo ⟨by linarith [hθ.1], by linarith [hθ.2]⟩
  have hd : ∀ θ ∈ Set.uIcc θ0 θf,
      HasDerivAt (fun t : ℝ => Real.log |1 / Real.cos t + Real.tan t|) (1 / Real.cos θ) θ :=
    fun θ hθ => hasDerivAt_log_sec_add_tan θ (hcos θ hθ)
  have hint : IntervalIntegrable (fun θ : ℝ => 1 / Real.cos θ) MeasureTheory.volume θ0 θf := by
    apply ContinuousOn.intervalIntegrable
    exact ContinuousOn.div continuousOn_const Real.continuous_cos.continuousOn
      (fun θ hθ => (hcos θ hθ).ne')
  rw [intervalIntegral.integral_eq_sub_of_hasDerivAt hd hint]
  rfl

/-- Witness of claim C20: the angles `0` and `π / 3`. -/
theorem J0minus1_is_integral_of_sec_witness :
    -(Real.pi / 2) < 0 ∧ (0 : ℝ) ≤ Real.pi / 3 ∧ Real.pi / 3 < Real.pi / 2 ∧
    CalcIntegralJ0minus1 0 (Real.pi / 3) = ∫ θ in (0 : ℝ)..(Real.pi / 3), 1 / Real.cos θ := by
  have hpi := Real.pi_pos
  exact ⟨by linarith, by linarith, by linarith,
    J0minus1_is_integral_of_sec 0 (Real.pi / 3) (by linarith) (by linarith) (by linarith)⟩

end

end Boussinesq
